import Mathlib

/-!
Verification of the MarketLens mention-resolution / merge-review /
snapshot-projection core against its natural-language specification.

The Lean definitions below are a shallow embedding of the Python source:

* `src/domain/models.py`          → domain records and their `validate`
* `src/utils/tool_function.py`    → SimHash and Hamming distance
* `src/agents/agent1.py`          → `NewsDeduplicator.is_duplicate`
* `src/app/business/review_ops.py`→ candidate generation, priorities,
                                    decision application, event-edge upsert
* `src/app/snapshot_service.py`   → the five graph-view builders

Machine `datetime` values are modelled as integers (an ordinal such as a
day number); ISO-8601 timestamp strings are modelled as decimal strings of
that ordinal, so that the string comparisons performed by the Python code
coincide with chronological comparisons exactly as they do on normalised
ISO strings.  Python dicts are modelled as insertion-ordered association
lists, matching dict iteration order.  `hashlib.md5` (standard library,
not repository code) is abstracted as an arbitrary function
`md5 : String → Nat` giving the 128-bit digest as a natural number.
-/

namespace MarketLens

/-! ## Python string/number/sort primitives

Python's `str` operations are modelled structurally over the character
list of the string (`String.data`), and Python's stable `sorted` as a
stable insertion sort; Python `float` arithmetic on the similarity
scores is modelled exactly over `ℚ` with results written in normalised
form (`mkRat`). -/

/-- Python `str.strip()`: drop leading and trailing whitespace. -/
def pyStrip (s : String) : String :=
  String.mk (((s.data.dropWhile Char.isWhitespace).reverse.dropWhile
    Char.isWhitespace).reverse)

/-- Python `str.lower()` (ASCII action; the inputs considered here have
no cased non-ASCII letters). -/
def pyLower (s : String) : String := String.mk (s.data.map Char.toLower)

/-- Python `s[:n]` on a string. -/
def pyTake (s : String) (n : Nat) : String := String.mk (s.data.take n)

/-- Python `sep.join(parts)`. -/
def pyJoin (sep : String) : List String → String
  | [] => ""
  | [p] => p
  | p :: rest => p ++ sep ++ pyJoin sep rest

/-- Python `pat in s` (substring containment). -/
def containsSub (pat : List Char) : List Char → Bool
  | [] => pat.isEmpty
  | c :: rest => pat.isPrefixOf (c :: rest) || containsSub pat rest

/-- Lexicographic code-point order on character lists: Python's `<=`
on strings. -/
def charListLe : List Char → List Char → Bool
  | [], _ => true
  | _ :: _, [] => false
  | a :: as, b :: bs =>
    if a < b then true else if b < a then false else charListLe as bs

/-- Python `a <= b` on strings. -/
def strLe (a b : String) : Bool := charListLe a.data b.data

/-- Stable insertion: place `x` before the first element not strictly
below it under `le`. -/
def insertLe {α : Type} (le : α → α → Bool) (x : α) : List α → List α
  | [] => [x]
  | y :: ys =>
    if le y x && !(le x y) then y :: insertLe le x ys else x :: y :: ys

/-- Python `sorted(l, key=...)` (Timsort): a stable sort under the
total preorder `le`; any stable sort computes the same list. -/
def pySorted {α : Type} (le : α → α → Bool) : List α → List α
  | [] => []
  | x :: xs => insertLe le x (pySorted le xs)

/-- Python `int()` on an exact nonnegative-or-negative rational:
truncation toward zero, which on a normalised `ℚ` is the truncating
integer division of numerator by denominator. -/
def pyInt (q : ℚ) : Int := q.num.tdiv q.den

/-- The exact value of `q * 100`, written in normalised form. -/
def ratTimes100 (q : ℚ) : ℚ := mkRat (q.num * 100) q.den

/-- Digits-to-number accumulator for `parseDec`. -/
def parseDecGo : List Char → Nat → Option Nat
  | [], acc => some acc
  | c :: rest, acc =>
    if c.isDigit then parseDecGo rest (acc * 10 + (c.toNat - 48)) else none

/-- Parse a decimal integer string (optional leading minus), the
ordinal reading of a modelled timestamp string. -/
def parseDec (s : String) : Option Int :=
  match s.data with
  | [] => none
  | '-' :: rest =>
    match rest with
    | [] => none
    | _ => (parseDecGo rest 0).map (fun n => -(n : Int))
  | cs => (parseDecGo cs 0).map (fun n => (n : Int))

/-! ## Association-list helpers (Python `dict` with insertion order) -/

/-- Look up a key in an insertion-ordered association list
(`d.get(k)` on a Python dict). -/
def alistFind {κ α : Type} [DecidableEq κ] (k : κ) : List (κ × α) → Option α
  | [] => none
  | (k', v) :: rest => if k' = k then some v else alistFind k rest

/-- `d[k] = v` on a Python dict: overwrite the value in place, keeping
the key's insertion position, or append the key on first use. -/
def alistSet {κ α : Type} [DecidableEq κ] (k : κ) (v : α) :
    List (κ × α) → List (κ × α)
  | [] => [(k, v)]
  | (k', v') :: rest =>
    if k' = k then (k', v) :: rest else (k', v') :: alistSet k v rest

/-- `d.setdefault(k, []).append(v)` on a Python dict of lists: append `v`
to the list bound to `k`, inserting the key at the end on first use. -/
def alistPush {κ α : Type} [DecidableEq κ] (k : κ) (v : α) :
    List (κ × List α) → List (κ × List α)
  | [] => [(k, [v])]
  | (k', vs) :: rest =>
    if k' = k then (k', vs ++ [v]) :: rest else (k', vs) :: alistPush k v rest

/-- `d[k] = d.get(k, 0) + 1` on a Python dict of counters. -/
def alistBump {κ : Type} [DecidableEq κ] (k : κ) :
    List (κ × Nat) → List (κ × Nat)
  | [] => [(k, 1)]
  | (k', n) :: rest =>
    if k' = k then (k', n + 1) :: rest else (k', n) :: alistBump k rest

/-- Keys of an association list, in insertion order. -/
def alistKeys {κ α : Type} (d : List (κ × α)) : List κ := d.map Prod.fst

/-! ## Domain models (`src/domain/models.py`)

`time` fields are `Option Int`: `none` models Python `None`, `some t`
a concrete `datetime` (as an ordinal). -/

/-- `RelationTriple` (`models.py` lines 174-197). -/
structure RelationTriple where
  event_id : String := ""
  subject_entity_id : String := ""
  predicate : String := ""
  object_entity_id : String := ""
  time : Option Int := none
  reported_at : Option Int := none
  evidence : List String := []
deriving DecidableEq

/-- `RelationTriple.validate`: the relation must carry a time and
non-empty subject/object/predicate. -/
def RelationTriple.validate (r : RelationTriple) : Bool :=
  r.time.isSome && r.subject_entity_id != "" && r.object_entity_id != ""
    && r.predicate != ""

/-- `EventEdge` (`models.py` lines 209-232); `edge_type` is kept as the
enum's string value. -/
structure EventEdge where
  from_event_id : String := ""
  to_event_id : String := ""
  edge_type : String := "related"
  time : Option Int := none
  reported_at : Option Int := none
  confidence : ℚ := 0
  evidence : List String := []
  decision_input_hash : String := ""
deriving DecidableEq

/-- `EventEdge.validate`: the edge must carry a time and both event ids. -/
def EventEdge.validate (e : EventEdge) : Bool :=
  e.time.isSome && e.from_event_id != "" && e.to_event_id != ""

/-- `Participant` (`models.py` lines 240-258). -/
structure Participant where
  event_id : String := ""
  entity_id : String := ""
  roles : List String := []
  time : Option Int := none
  reported_at : Option Int := none
deriving DecidableEq

/-- `Participant.validate`: the participation must carry a time and both
foreign keys. -/
def Participant.validate (p : Participant) : Bool :=
  p.time.isSome && p.event_id != "" && p.entity_id != ""

/-! ## SimHash deduplication (`src/utils/tool_function.py` lines 89-108,
`src/agents/agent1.py` lines 44-60) -/

/-- Number of set bits, peeling binary digits; the fuel argument (the
number itself) bounds the recursion depth. -/
def bitCountAux : Nat → Nat → Nat
  | 0, _ => 0
  | fuel + 1, n => if n = 0 then 0 else n % 2 + bitCountAux fuel (n / 2)

/-- Number of set bits of a natural number (`bin(x).count("1")`). -/
def bitCount (n : Nat) : Nat := bitCountAux n n

/-- `tools.hamming_distance(h1, h2) = bin(h1 ^ h2).count("1")`. -/
def hamming_distance (h1 h2 : Nat) : Nat := bitCount (h1 ^^^ h2)

/-- Whitespace splitter: the `re.sub(r"\s+", " ", ...)` plus `split()`
tokenisation of `tools.simhash` (runs of whitespace separate tokens, no
empty tokens). -/
def wsTokensGo : List Char → List Char → List String
  | [], cur => if cur.isEmpty then [] else [String.mk cur.reverse]
  | c :: rest, cur =>
    if c.isWhitespace then
      if cur.isEmpty then wsTokensGo rest []
      else String.mk cur.reverse :: wsTokensGo rest []
    else wsTokensGo rest (c :: cur)

/-- Tokenisation in `tools.simhash`: lower-case the text and split on
whitespace runs. -/
def simhashTokens (text : String) : List String :=
  wsTokensGo (pyLower text).data []

/-- One token's vote for bit `i`: `+1` if bit `i` of the token's MD5
digest is set, else `-1`. -/
def tokenVote (h : Nat) (i : Nat) : Int :=
  if (h >>> i) % 2 = 1 then 1 else -1

/-- The accumulated vote `v[i]` across all token digests. -/
def voteSum (hs : List Nat) (i : Nat) : Int :=
  (hs.map (tokenVote · i)).sum

/-- Assemble the low `n` bits of the SimHash: bit `i` is set iff the
vote for `i` is strictly positive (`if v[i] > 0: hash_val |= 1 << i`). -/
def simhashBits (hs : List Nat) : Nat → Nat
  | 0 => 0
  | n + 1 => simhashBits hs n + (if 0 < voteSum hs n then 2 ^ n else 0)

/-- `tools.simhash(text, bits=64)` with the MD5 digest function abstracted
as `md5`. -/
def simhash (md5 : String → Nat) (text : String) : Nat :=
  simhashBits ((simhashTokens text).map md5) 64

/-- `NewsDeduplicator.is_duplicate`: compare the new hash against every
previously seen hash; at distance ≤ threshold report a duplicate, else
record the hash in the batch-scoped seen set.  Returns the verdict and
the updated seen set (the Python method mutates `self.seen_hashes`). -/
def is_duplicate (md5 : String → Nat) (threshold : Nat) (seen : List Nat)
    (text : String) : Bool × List Nat :=
  let h := simhash md5 text
  if seen.any (fun s => hamming_distance h s ≤ threshold) then (true, seen)
  else (false, seen ++ [h])

/-! ## Name normalisation and similarity
(`src/app/business/review_ops.py` lines 21-30) -/

/-- The punctuation/whitespace characters removed by `_norm_name`
(the literal list in `review_ops.py` line 24; `Char.ofNat 123/125/34/39`
are the two curly braces, the double quote and the apostrophe). -/
def normStrip : List Char :=
  [' ', '\t', '\n', '\r', '·', '•', '-', '_', '.', ',', '，', '。',
   '（', '）', '(', ')', '[', ']', Char.ofNat 123, Char.ofNat 125,
   Char.ofNat 34, Char.ofNat 39]

/-- `_norm_name(s)`: strip, lower-case, drop the characters in
`normStrip`. -/
def norm_name (s : String) : String :=
  String.mk ((pyLower (pyStrip s)).data.filter (fun c => ¬ normStrip.contains c))

/-! `difflib.SequenceMatcher(None, a, b).ratio()`, modelled for inputs
shorter than 200 elements, where the `autojunk` heuristic is inert and
no element is junk; the junk-extension loops of `find_longest_match` are
then provably no-ops and are omitted. -/

/-- Generic association-list lookup with any decidable key type
(positions map `j2len` of `find_longest_match`). -/
def natFind (k : Nat) : List (Nat × Nat) → Option Nat
  | [] => none
  | (k', v) :: rest => if k' = k then some v else natFind k rest

/-- `b2j[c]` restricted to `[blo, bhi)`: the ascending positions of `c`
in `b` that survive the `j < blo: continue` / `j >= bhi: break` guards. -/
def b2jRange (b : List Char) (c : Char) (blo bhi : Nat) : List Nat :=
  ((b.enum.filter (fun p => p.2 = c)).map Prod.fst).filter
    (fun j => blo ≤ j && j < bhi)

/-- Inner step of `find_longest_match`: extend the run ending at
`(i, j)` (`k = newj2len[j] = j2len.get(j-1, 0) + 1`) and keep the first
strictly longer match. -/
def flmInner (j2len : List (Nat × Nat)) (i : Nat)
    (st : List (Nat × Nat) × Nat × Nat × Nat) (j : Nat) :
    List (Nat × Nat) × Nat × Nat × Nat :=
  let newj2len := st.1
  let besti := st.2.1
  let bestj := st.2.2.1
  let bestsize := st.2.2.2
  let k := (if j = 0 then 0 else (natFind (j - 1) j2len).getD 0) + 1
  let newj2len := newj2len ++ [(j, k)]
  if bestsize < k then (newj2len, i + 1 - k, j + 1 - k, k)
  else (newj2len, besti, bestj, bestsize)

/-- One row (`for i in range(alo, ahi)`) of `find_longest_match`. -/
def flmRow (a b : List Char) (blo bhi : Nat)
    (st : List (Nat × Nat) × Nat × Nat × Nat) (i : Nat) :
    List (Nat × Nat) × Nat × Nat × Nat :=
  let js := b2jRange b (a.getD i ' ') blo bhi
  js.foldl (flmInner st.1 i) ([], st.2)

/-- `SequenceMatcher.find_longest_match(alo, ahi, blo, bhi)` (junk-free):
returns `(besti, bestj, bestsize)`. -/
def findLongestMatch (a b : List Char) (alo ahi blo bhi : Nat) :
    Nat × Nat × Nat :=
  ((List.range' alo (ahi - alo)).foldl (flmRow a b blo bhi)
    ([], alo, blo, 0)).2

/-- Total size of the matching blocks found by the recursive splitting of
`get_matching_blocks` on the given ranges.  The fuel argument bounds the
recursion depth; `a.length + b.length + 1` always suffices because each
level removes at least one element from the `a`-range. -/
def matchingSizeAux (a b : List Char) :
    Nat → Nat → Nat → Nat → Nat → Nat
  | 0, _, _, _, _ => 0
  | fuel + 1, alo, ahi, blo, bhi =>
    let m := findLongestMatch a b alo ahi blo bhi
    let i := m.1
    let j := m.2.1
    let k := m.2.2
    if k = 0 then 0
    else
      k + (if alo < i && blo < j then matchingSizeAux a b fuel alo i blo j else 0)
        + (if i + k < ahi && j + k < bhi then
            matchingSizeAux a b fuel (i + k) ahi (j + k) bhi else 0)

/-- Sum of the sizes of all matching blocks of
`SequenceMatcher(None, a, b)` (the `M` in `ratio = 2M/T`). -/
def matchingTotal (a b : List Char) : Nat :=
  matchingSizeAux a b (a.length + b.length + 1) 0 a.length 0 b.length

/-- `SequenceMatcher(None, a, b).ratio() = 2M/T` (`1.0` when both are
empty), as an exact rational. -/
def seqRatio (sa sb : String) : ℚ :=
  let a := sa.data
  let b := sb.data
  let t := a.length + b.length
  if t = 0 then 1 else mkRat (2 * matchingTotal a b) t

/-- `_name_sim(a, b) = SequenceMatcher(None, _norm_name(a), _norm_name(b)).ratio()`. -/
def name_sim (a b : String) : ℚ := seqRatio (norm_name a) (norm_name b)

/-! ## Entity-merge candidate generation
(`review_ops.py` lines 96-172, `enqueue_entity_merge_candidates`) -/

/-- Order-preserving deduplication (the `uniq` loop of phase 1 and
Python `set` iteration modelled as first-occurrence order). -/
def dedupKeep {α : Type} [DecidableEq α] (l : List α) : List α :=
  l.foldl (fun u g => if g ∈ u then u else u ++ [g]) []

/-- All ordered pairs `(l[i], l[j])` with `i < j`, in the nested-loop
order of the Python code. -/
def upairs {α : Type} : List α → List (α × α)
  | [] => []
  | x :: xs => xs.map (fun y => (x, y)) ++ upairs xs

/-- A candidate tuple `(a, b, score, reason)` as accumulated in `pairs`. -/
structure CandPair where
  a : String
  b : String
  score : ℚ
  reason : String
deriving DecidableEq

/-- A row of `review_tasks` as enqueued for an entity-merge candidate:
the payload fields plus `priority = int(sim * 100)`. -/
structure EntityMergeTask where
  entity_a : String
  entity_b : String
  similarity : ℚ
  candidate_reason : String
  priority : Int
deriving DecidableEq

/-- Phase 1 of `enqueue_entity_merge_candidates`: index every entity
name under the normalised forms of `[name] + original_forms`
(`form_index`), insertion-ordered. -/
def formIndex (entities : List (String × List String)) :
    List (String × List String) :=
  entities.foldl (fun idx e =>
    (e.1 :: e.2).foldl (fun idx f =>
      if pyStrip f = "" then idx
      else
        let key := norm_name f
        if key = "" then idx else alistPush key e.1 idx) idx) []

/-- Phase-1 candidate pairs: within each `form_index` group, all pairs of
distinct names, score `1.0`, reason `original_forms_match`. -/
def phase1Pairs (entities : List (String × List String)) : List CandPair :=
  (formIndex entities).foldl (fun acc g =>
    let uniq := dedupKeep g.2
    if uniq.length < 2 then acc
    else acc ++ (upairs uniq).map
      (fun p => ⟨p.1, p.2, 1, "original_forms_match"⟩)) []

/-- Phase-2 buckets: entities keyed by the 6-character prefix of the
normalised name. -/
def nameBuckets (names : List String) : List (String × List String) :=
  names.foldl (fun bk n => alistPush (pyTake (norm_name n) 6) n bk) []

/-- Phase-2 candidate pairs: within each bucket, pairs whose
`_name_sim` is at least `min_similarity`, reason `name_similarity`. -/
def phase2Pairs (names : List String) (min_similarity : ℚ) : List CandPair :=
  (nameBuckets names).foldl (fun acc g =>
    if g.2.length < 2 then acc
    else acc ++ (upairs g.2).filterMap (fun p =>
      let sim := name_sim p.1 p.2
      if min_similarity ≤ sim then some ⟨p.1, p.2, sim, "name_similarity"⟩
      else none)) []

/-- `tuple(sorted([a, b]))`: the unordered key used by `seen_pair`. -/
def sortedPair (a b : String) : String × String :=
  if strLe a b then (a, b) else (b, a)

/-- The enqueue loop: walk the candidate pairs, skip already-seen
unordered pairs, and enqueue a task with
`priority = int(sim * 100)`. -/
def enqueueLoop :
    List CandPair → List (String × String) → List EntityMergeTask
  | [], _ => []
  | c :: rest, seen =>
    let k := sortedPair c.a c.b
    if k ∈ seen then enqueueLoop rest seen
    else
      ⟨c.a, c.b, c.score, c.reason, pyInt (ratTimes100 c.score)⟩ ::
        enqueueLoop rest (seen ++ [k])

/-- `enqueue_entity_merge_candidates(min_similarity, max_pairs)` over the
entity export `name → original_forms`: the list of review tasks written
to the store, in order.  The `len(pairs) >= max_pairs` breaks in both
phases amount to truncating the concatenated candidate stream at
`max_pairs` (phase 2 runs only while the cap is not yet reached and no
append happens once it is). -/
def enqueue_entity_merge_candidates (entities : List (String × List String))
    (min_similarity : ℚ) (max_pairs : Nat) : List EntityMergeTask :=
  let pairs :=
    (phase1Pairs entities ++
      phase2Pairs (entities.map Prod.fst) min_similarity).take max_pairs
  enqueueLoop pairs []

/-! ## Event merge-or-evolve candidate generation
(`review_ops.py` lines 180-236, `enqueue_event_merge_or_evolve_candidates`) -/

/-- One element of `items`: `(event_id, abstract, time, entities)` with
the entity list already filtered to non-blank strings
(`review_ops.py` lines 193-200). -/
structure EventItem where
  event_id : String
  abstract : String
  time : String
  entities : List String
deriving DecidableEq, Inhabited

/-- `ent_buckets`: entity name → indices of the events naming it
(`for e in set(ents)` modelled with first-occurrence order). -/
def entBuckets (items : List EventItem) : List (String × List Nat) :=
  items.enum.foldl (fun bk ei =>
    (dedupKeep ei.2.entities).foldl (fun bk e => alistPush e ei.1 bk) bk) []

/-- `pair_scores`: for each bucket, every index pair gains one shared
entity. -/
def pairScores (items : List EventItem) : List ((Nat × Nat) × Nat) :=
  (entBuckets items).foldl (fun ps g =>
    if g.2.length < 2 then ps
    else (upairs g.2).foldl (fun ps p =>
      if p.1 = p.2 then ps
      else alistBump (if p.1 < p.2 then (p.1, p.2) else (p.2, p.1)) ps) ps) []

/-- The payload's per-event slice: id, abstract, time, entities
truncated to 30. -/
structure EventRef where
  event_id : String
  abstract : String
  time : String
  entities : List String
deriving DecidableEq

/-- A review task enqueued for an event merge-or-evolve candidate, with
`priority = min(100, shared * 10)`. -/
structure EventMergeTask where
  event_a : EventRef
  event_b : EventRef
  shared_entities : Nat
  priority : Nat
deriving DecidableEq

/-- Truncate an item to the payload slice (`entities[:30]`). -/
def EventItem.toRef (it : EventItem) : EventRef :=
  ⟨it.event_id, it.abstract, it.time, it.entities.take 30⟩

/-- `enqueue_event_merge_or_evolve_candidates(max_pairs,
shared_entity_min, days_window)`: score pairs by shared entities, keep
the top `max_pairs` by score (stable descending sort), drop pairs below
`shared_entity_min`, and enqueue with `priority = min(100, shared*10)`. -/
def enqueue_event_merge_or_evolve_candidates (items : List EventItem)
    (max_pairs : Nat) (shared_entity_min : Nat) : List EventMergeTask :=
  let candidates :=
    (pySorted (fun x y => y.2 ≤ x.2) (pairScores items)).take max_pairs
  candidates.filterMap (fun c =>
    if c.2 < shared_entity_min then none
    else
      some ⟨(items.getD c.1.1 default).toRef, (items.getD c.1.2 default).toRef,
        c.2, min 100 (c.2 * 10)⟩)

/-! ## Canonical store and entity merge

The SQLite adapter (`src/adapters/sqlite/store.py`, imported by
`review_ops.py`) is not present in the source tree; only its port
declaration (`src/ports/store.py`) and its callers are.  The write
operations below are therefore modelled from the spec (§3, §4.5). -/

/-- An `EntityCanonical` row of the `entities` table. -/
structure EntityRec where
  entity_id : String
  name : String
  first_seen : Int
  sources : List String
  original_forms : List String
  aliases : List String
deriving DecidableEq

/-- The store tables touched by an entity merge. -/
structure Store where
  entities : List EntityRec
  relations : List RelationTriple
  participants : List Participant
deriving DecidableEq

/-- Order-preserving union of two lists (the merge "unions
sources/original_forms/aliases"). -/
def listUnion (l1 l2 : List String) : List String :=
  l1 ++ l2.filter (fun x => x ∉ l1)

/-- Modelled from the spec: `canonical_entity_id` lives in the absent
SQLite store module; §2 defines it as `sha1("ent:" + normalized_name)`.
The sha1 content-addressing is abstracted to the prefixed normalised
name itself (an injective stand-in for the digest). -/
def canonical_entity_id (name : String) : String :=
  "ent:" ++ norm_name name

/-- Modelled from the spec: `store.merge_entities(from_id, to_id, ...)`
(absent SQLite store module; spec §4.5): if `from_id` no longer exists
the call is a no-op returning `skipped`; otherwise union
`sources`/`original_forms`/`aliases` into the `to` record (created
under the new key if absent, §3), take `min(first_seen)`, rewrite all
`RelationTriple`/`Participant` foreign keys from `from_id` to `to_id`,
and delete the `from` record.  Returns the status and the new store. -/
def merge_entities (st : Store) (fromId toId : String) : String × Store :=
  match st.entities.find? (fun e => e.entity_id == fromId) with
  | none => ("skipped", st)
  | some fr =>
    let toRec := (st.entities.find? (fun e => e.entity_id == toId)).getD
      { entity_id := toId, name := fr.name, first_seen := fr.first_seen,
        sources := [], original_forms := [], aliases := [] }
    let merged : EntityRec :=
      { toRec with
        sources := listUnion toRec.sources fr.sources,
        original_forms := listUnion toRec.original_forms fr.original_forms,
        aliases := listUnion toRec.aliases fr.aliases,
        first_seen := min toRec.first_seen fr.first_seen }
    let ents1 :=
      if st.entities.any (fun e => e.entity_id == toId) then
        st.entities.map (fun e => if e.entity_id == toId then merged else e)
      else st.entities ++ [merged]
    ("merged",
      { entities := ents1.filter (fun e => e.entity_id != fromId),
        relations := st.relations.map (fun r =>
          { r with
            subject_entity_id :=
              if r.subject_entity_id = fromId then toId else r.subject_entity_id,
            object_entity_id :=
              if r.object_entity_id = fromId then toId else r.object_entity_id }),
        participants := st.participants.map (fun p =>
          { p with entity_id := if p.entity_id = fromId then toId else p.entity_id }) })

/-! ## Applying entity-merge decisions
(`review_ops.py` lines 310-390, `apply_entity_merge_decisions`) -/

/-- One `merge_decisions` row for an entity review: its idempotency key
and the parsed `output_json`.  `none` models an `output_json` that fails
to parse or is not a dict/has no truthy `merge`; `some cn` a decision
with truthy `merge` and raw `canonical_name` `cn`. -/
structure EntityDecision where
  input_hash : String
  output : Option String
deriving DecidableEq

/-- Lines 351-374 of `apply_entity_merge_decisions`: parse the stored
decision and pick the `(to_name, from_name)` merge direction — prefer
the side matching `canonical_name`, else keep the longer name as the
target; `none` when the decision is unusable (unparseable output, no
truthy `merge`, or a blank entity name), which the loop counts as
skipped. -/
def decideMergeNames (taskMap : List (String × (String × String)))
    (d : EntityDecision) : Option (String × String) :=
  match d.output with
  | none => none
  | some canonicalName =>
    let payload := (alistFind d.input_hash taskMap).getD ("", "")
    let aName := pyStrip payload.1
    let bName := pyStrip payload.2
    if aName = "" ∨ bName = "" then none
    else
      let cn := pyStrip canonicalName
      some (if cn = aName then (aName, bName)
        else if cn = bName then (bName, aName)
        else if bName.length ≤ aName.length then (aName, bName)
        else (bName, aName))

/-- The loop of `apply_entity_merge_decisions`: walk the decision rows,
stop once `applied` reaches `max_actions`, call `merge_entities` in the
chosen direction, and count `applied` versus `skipped`. -/
def applyDecisionsGo (taskMap : List (String × (String × String)))
    (maxActions : Nat) :
    List EntityDecision → Store → Nat → Nat → Store × Nat × Nat
  | [], st, applied, skipped => (st, applied, skipped)
  | d :: rest, st, applied, skipped =>
    if maxActions ≤ applied then (st, applied, skipped)
    else
      match decideMergeNames taskMap d with
      | none => applyDecisionsGo taskMap maxActions rest st applied (skipped + 1)
      | some tf =>
        let res := merge_entities st (canonical_entity_id tf.2)
          (canonical_entity_id tf.1)
        if res.1 = "merged" then
          applyDecisionsGo taskMap maxActions rest res.2 (applied + 1) skipped
        else
          applyDecisionsGo taskMap maxActions rest res.2 applied (skipped + 1)

/-- `apply_entity_merge_decisions(max_actions)`: returns the final store
and the `(applied, skipped)` counters. -/
def apply_entity_merge_decisions (decisions : List EntityDecision)
    (taskMap : List (String × (String × String))) (maxActions : Nat)
    (st : Store) : Store × Nat × Nat :=
  applyDecisionsGo taskMap maxActions decisions st 0 0

/-! ## Event-edge upsert and evolve decisions
(`review_ops.py` lines 398-489, `apply_event_merge_or_evolve_decisions`) -/

/-- A row of the `event_edges` table (times as timestamp strings, as
stored). -/
structure EventEdgeRow where
  from_event_id : String
  to_event_id : String
  edge_type : String
  time : String
  reported_at : String
  confidence : ℚ
  evidence : List String
  decision_input_hash : String
deriving DecidableEq

/-- Two rows collide on the natural key
`(from_event_id, to_event_id, edge_type)`. -/
def edgeKeyMatch (r q : EventEdgeRow) : Bool :=
  r.from_event_id == q.from_event_id && r.to_event_id == q.to_event_id
    && r.edge_type == q.edge_type

/-- The `DO UPDATE SET` clause applied on a natural-key conflict:
overwrite the stored row's `time`, `reported_at`, `confidence` and
`evidence`, leaving the key and `decision_input_hash` as stored. -/
def edgeUpdate (row r : EventEdgeRow) : EventEdgeRow :=
  if edgeKeyMatch r row then
    ⟨r.from_event_id, r.to_event_id, r.edge_type, row.time, row.reported_at,
     row.confidence, row.evidence, r.decision_input_hash⟩
  else r

/-- `INSERT ... ON CONFLICT(from_event_id,to_event_id,edge_type) DO
UPDATE SET time, reported_at, confidence, evidence_json` (lines
470-478): update the colliding row's four mutable columns, else append
the new row. -/
def upsert_event_edge (tbl : List EventEdgeRow) (row : EventEdgeRow) :
    List EventEdgeRow :=
  if tbl.any (fun r => edgeKeyMatch r row) then tbl.map (edgeUpdate row)
  else tbl ++ [row]

/-- The edge-time computation for an `evolve` decision (lines 449-451):
prefer `event_a.time`, then `event_b.time`, strip, and fall back to the
current UTC timestamp when empty. -/
def evolve_edge_time (ta tb now : String) : String :=
  if (pyStrip (if ta = "" then tb else ta)) = "" then now
  else pyStrip (if ta = "" then tb else ta)

/-- The `event_edges` row written for an `evolve` decision (lines
465-478); `now` is the `_utc_now_iso()` reading used for both the time
fallback and `reported_at`. -/
def evolve_edge_row (aId bId edgeType : String) (conf : ℚ)
    (ev : List String) (inputHash ta tb now : String) : EventEdgeRow :=
  { from_event_id := aId, to_event_id := bId, edge_type := edgeType,
    time := evolve_edge_time ta tb now, reported_at := now,
    confidence := conf, evidence := ev, decision_input_hash := inputHash }

/-! ## Snapshot projection (`src/app/snapshot_service.py`)

The clock is a single instant `now : Int` (a datetime ordinal); its
ISO rendering is modelled as `toString now`, so timestamp strings are
decimal renderings of ordinals and the string comparisons performed by
the Python code order them chronologically (as they do on normalised
ISO-8601 strings). -/

/-- `_parse_iso`: parse a timestamp string to its ordinal; `none` for
the empty or unparseable string (the Python helper returns `None`). -/
def parse_iso (s : String) : Option Int :=
  if s = "" then none else parseDec s

/-- A row of the `entities` table as fetched for projection. -/
structure EntityRow where
  entity_id : String
  name : String
  first_seen : String
deriving DecidableEq

/-- A row of the `events` table as fetched for projection. -/
structure EventRow where
  event_id : String
  abstract : String
  event_summary : String
  event_types_json : String
  event_start_time : String
  reported_at : String
  first_seen : String
deriving DecidableEq, Inhabited

/-- A participant row joined with its event
(`fetch_participants_with_events`); `roles` models the decoded
`roles_json` (decode failure as `[]`). -/
structure PartRow where
  time : String
  event_start_time : String
  evt_reported_at : String
  first_seen : String
  abstract : String
  entity_id : String
  event_summary : String
  roles : List String
deriving DecidableEq

/-- A relation row as fetched for projection; `evidence` models the
decoded `evidence_json` (decode failure as `[]`). -/
structure RelRow where
  subject_entity_id : String
  object_entity_id : String
  predicate : String
  time : String
  evidence : List String
deriving DecidableEq

/-- An `event_edges` row as fetched for projection. -/
structure EventEdgeFetched where
  from_event_id : String
  to_event_id : String
  edge_type : String
  time : String
  confidence : ℚ
  evidence : List String
deriving DecidableEq

/-- `SnapshotParams` (`snapshot_service.py` lines 44-50). -/
structure SnapshotParams where
  top_entities : Nat := 500
  top_events : Nat := 500
  max_edges : Nat := 5000
  days_window : Int := 0
  gap_days : Int := 30
deriving DecidableEq

/-- The `attrs` dict attached to `relation_state` nodes in EE_EVO. -/
structure NodeAttrs where
  valid_from : String
  valid_to : String
  evidence : List String
deriving DecidableEq

/-- A node dict of a snapshot document. -/
structure Node where
  id : String
  label : String
  type : String
  color : String
  time : Option String := none
  attrs : Option NodeAttrs := none
deriving DecidableEq

/-- The `attrs` dict attached to EE relation edges. -/
structure EdgeAttrs where
  last_seen : String
  evidence : List String
deriving DecidableEq

/-- An edge dict of a snapshot document (`from`/`to` written as
`from_node`/`to_node`, the names the repo's own
`ports/snapshot.py` uses, since `from` is reserved in Lean). -/
structure Edge where
  from_node : String
  to_node : String
  type : String
  title : String
  time : String
  attrs : Option EdgeAttrs := none
  confidence : Option ℚ := none
  evidence : Option (List String) := none
deriving DecidableEq

/-- A snapshot document `{meta, nodes, edges}`; `meta` is the dict of
string-valued entries actually written by `SnapshotService`. -/
structure Doc where
  meta : List (String × String)
  nodes : List Node
  edges : List Edge
deriving DecidableEq

/-- `_edge_time_fallback(*vals)`: the first non-blank value, stripped,
else the current UTC timestamp. -/
def edge_time_fallback (vals : List String) (now : Int) : String :=
  match vals.find? (fun v => pyStrip v != "") with
  | some v => pyStrip v
  | none => toString now

/-- `SnapshotService._filter_by_days_window(ts, days_window)`: keep
everything when the window is off; otherwise keep only parseable
timestamps not older than `now - days_window`. -/
def filter_by_days_window (ts : String) (days_window : Int) (now : Int) : Bool :=
  if days_window ≤ 0 then true
  else
    match parse_iso ts with
    | none => false
    | some dt => now - days_window ≤ dt

/-- `_load_entity_map_from_rows`: `entity_id → name` (plain dict
assignment, last row wins). -/
def loadEntityMap (rows : List EntityRow) : List (String × String) :=
  rows.foldl (fun m r => alistSet r.entity_id r.name m) []

/-- `_load_event_map_from_rows`, first component: `event_id → abstract`
(`setdefault`, first row wins). -/
def loadEvtIdToAbs (rows : List EventRow) : List (String × String) :=
  rows.foldl (fun m r =>
    if (alistFind r.event_id m).isSome then m
    else alistSet r.event_id r.abstract m) []

/-- `_load_event_map_from_rows`, second component: `abstract → event`
(plain assignment, last row wins). -/
def loadAbsToEvt (rows : List EventRow) : List (String × EventRow) :=
  rows.foldl (fun m r => alistSet r.abstract r m) []

/-- The event node built for `EVT:<abstract>` (label
`event_summary or abstract` truncated to 80, orange, with the event's
own time fallback). -/
def evtNodeOf (evtNode absKey : String) (evt : Option EventRow) (now : Int) :
    Node :=
  let e := evt.getD default
  { id := evtNode,
    label := pyTake (if e.event_summary = "" then absKey else e.event_summary) 80,
    type := "event", color := "#ff7f0e",
    time := some (edge_time_fallback
      [e.event_start_time, e.reported_at, e.first_seen] now) }

/-- The plain entity node `{id, label, type, color}`. -/
def entNodeOf (name : String) : Node :=
  { id := name, label := name, type := "entity", color := "#1f77b4" }

/-- `if key not in nodes: nodes[key] = mk` — the node-insertion pattern
shared by all builders. -/
def ensureNode (k : String) (mk : Node) (nodes : List (String × Node)) :
    List (String × Node) :=
  if (alistFind k nodes).isSome then nodes else alistSet k mk nodes

/-- Folding state of the GE participant loop. -/
structure GEState where
  nodes : List (String × Node)
  edges : List Edge
  deg : List (String × Nat)
deriving DecidableEq

/-- The `involved_in` edge title: the first 6 non-blank roles joined
with `" / "`, or `involved_in` when the roles list is empty. -/
def rolesTitle (roles : List String) : String :=
  if roles = [] then "involved_in"
  else pyJoin " / " ((roles.filter (fun x => pyStrip x != "")).take 6)

/-- One iteration of the GE participant loop (`build_ge` lines
111-143). -/
def geStep (entMap : List (String × String)) (absMap : List (String × EventRow))
    (params : SnapshotParams) (now : Int) (st : GEState) (r : PartRow) :
    GEState :=
  let t := edge_time_fallback
    [r.time, r.event_start_time, r.evt_reported_at, r.first_seen] now
  if ¬ filter_by_days_window t params.days_window now then st
  else
    let absKey := r.abstract
    let evtNode := "EVT:" ++ absKey
    let entName := (alistFind r.entity_id entMap).getD ""
    if absKey = "" ∨ entName = "" then st
    else
      let nodes := ensureNode evtNode
        (evtNodeOf evtNode absKey (alistFind absKey absMap) now) st.nodes
      let nodes := ensureNode entName (entNodeOf entName) nodes
      let e : Edge :=
        { from_node := entName, to_node := evtNode, type := "involved_in",
          title := rolesTitle r.roles, time := t }
      { nodes := nodes, edges := st.edges ++ [e],
        deg := alistBump evtNode (alistBump entName st.deg) }

/-- The degree-based node selection shared by GE/GET/EE:
`set(sorted(deg, key=deg.get, reverse=True)[:k])` (stable descending
sort on the counter values, first `k` keys). -/
def topKeys (deg : List (String × Nat)) (k : Nat) : List String :=
  ((pySorted (fun x y => y.2 ≤ x.2) deg).take k).map Prod.fst

/-- `SnapshotService.build_ge`. -/
def build_ge (rows_entities : List EntityRow) (rows_events : List EventRow)
    (rows_parts : List PartRow) (params : SnapshotParams) (now : Int) : Doc :=
  let entMap := loadEntityMap rows_entities
  let absMap := loadAbsToEvt rows_events
  let st := rows_parts.foldl (geStep entMap absMap params now) ⟨[], [], []⟩
  let top := topKeys st.deg (params.top_entities + params.top_events)
  { meta := [("graph_type", "GE"), ("generated_at", toString now)],
    nodes := (st.nodes.filter (fun kv => top.contains kv.1)).map Prod.snd,
    edges := (st.edges.filter (fun e =>
      top.contains e.from_node && top.contains e.to_node)).take params.max_edges }

/-- Folding state of the GET participant loop. -/
structure GETState where
  by_ent : List (String × List (String × String))
  nodes : List (String × Node)
  edges : List Edge
deriving DecidableEq

/-- One iteration of the GET participant loop (`build_get` lines
158-179). -/
def getStep (entMap : List (String × String)) (absMap : List (String × EventRow))
    (params : SnapshotParams) (now : Int) (st : GETState) (r : PartRow) :
    GETState :=
  let ent := (alistFind r.entity_id entMap).getD ""
  let absKey := r.abstract
  if ent = "" ∨ absKey = "" then st
  else
    let t := edge_time_fallback
      [r.time, r.event_start_time, r.evt_reported_at, r.first_seen] now
    if ¬ filter_by_days_window t params.days_window now then st
    else
      let evtNode := "EVT:" ++ absKey
      let by_ent := alistPush ent (t, evtNode) st.by_ent
      let nodes := ensureNode ent (entNodeOf ent) st.nodes
      let nodes := ensureNode evtNode
        (evtNodeOf evtNode absKey (alistFind absKey absMap) now) nodes
      let e : Edge :=
        { from_node := ent, to_node := evtNode, type := "involved_in",
          title := "involved_in", time := t }
      { by_ent := by_ent, nodes := nodes, edges := st.edges ++ [e] }

/-- Consecutive pairs of a list (`seq2[i-1], seq2[i]`). -/
def consecPairs {α : Type} : List α → List (α × α)
  | a :: b :: rest => (a, b) :: consecPairs (b :: rest)
  | _ => []

/-- The `before` edges of one entity's chronologically sorted event
sequence (`build_get` lines 181-184). -/
def beforeEdges (seq : List (String × String)) : List Edge :=
  (consecPairs (pySorted (fun x y => strLe x.1 y.1) seq)).map (fun p =>
    { from_node := p.1.2, to_node := p.2.2, type := "before",
      title := "before", time := p.2.1 })

/-- `SnapshotService.build_get`. -/
def build_get (rows_entities : List EntityRow) (rows_events : List EventRow)
    (rows_parts : List PartRow) (params : SnapshotParams) (now : Int) : Doc :=
  let entMap := loadEntityMap rows_entities
  let absMap := loadAbsToEvt rows_events
  let st := rows_parts.foldl (getStep entMap absMap params now) ⟨[], [], []⟩
  let edges := st.by_ent.foldl (fun es g => es ++ beforeEdges g.2) st.edges
  let deg := edges.foldl (fun d e => alistBump e.to_node (alistBump e.from_node d)) []
  let top := topKeys deg (params.top_entities + params.top_events)
  { meta := [("graph_type", "GET"), ("generated_at", toString now)],
    nodes := (st.nodes.filter (fun kv => top.contains kv.1)).map Prod.snd,
    edges := (edges.filter (fun e =>
      top.contains e.from_node && top.contains e.to_node)).take params.max_edges }

/-- An aggregation cell of `build_ee` (`agg[(s,p,o)]`). -/
structure EEItem where
  from_node : String
  to_node : String
  title : String
  time_first : String
  time_last : String
  evidence : List String
deriving DecidableEq

/-- Merge one relation row's evidence into the cell (`build_ee` lines
217-224: blank-stripped, dedup against the stored values by the raw
string, appended stripped). -/
def eeEvidence (acc : List String) (ev : List String) : List String :=
  ev.foldl (fun acc x =>
    if pyStrip x != "" && ¬ acc.contains x then acc ++ [pyStrip x] else acc) acc

/-- One iteration of the EE relation loop (`build_ee` lines 199-224). -/
def eeStep (entMap : List (String × String)) (params : SnapshotParams)
    (now : Int) (agg : List ((String × String × String) × EEItem))
    (r : RelRow) : List ((String × String × String) × EEItem) :=
  let s := (alistFind r.subject_entity_id entMap).getD ""
  let o := (alistFind r.object_entity_id entMap).getD ""
  let p := pyStrip r.predicate
  let t := if pyStrip r.time = "" then toString now else pyStrip r.time
  if s = "" ∨ o = "" ∨ p = "" then agg
  else if ¬ filter_by_days_window t params.days_window now then agg
  else
    let key := (s, p, o)
    let item := (alistFind key agg).getD
      { from_node := s, to_node := o, title := p,
        time_first := t, time_last := t, evidence := [] }
    let item := { item with
      time_first := if t < item.time_first then t else item.time_first,
      time_last := if item.time_last < t then t else item.time_last }
    let item := { item with evidence := eeEvidence item.evidence r.evidence }
    alistSet key item agg

/-- The second loop of `build_ee` (lines 228-242): ensure both entity
nodes and emit the aggregated relation edge. -/
def eeRenderStep (ne : List (String × Node) × List Edge)
    (kv : (String × String × String) × EEItem) :
    List (String × Node) × List Edge :=
  let v := kv.2
  let nodes := ensureNode v.from_node (entNodeOf v.from_node) ne.1
  let nodes := ensureNode v.to_node (entNodeOf v.to_node) nodes
  let e : Edge :=
    { from_node := v.from_node, to_node := v.to_node, type := "relation",
      title := v.title, time := v.time_first,
      attrs := some { last_seen := v.time_last,
                      evidence := v.evidence.take 5 } }
  (nodes, ne.2 ++ [e])

/-- `SnapshotService.build_ee`. -/
def build_ee (rows_entities : List EntityRow) (rows_rels : List RelRow)
    (params : SnapshotParams) (now : Int) : Doc :=
  let entMap := loadEntityMap rows_entities
  let agg := rows_rels.foldl (eeStep entMap params now) []
  let ne := agg.foldl eeRenderStep ([], [])
  let deg := ne.2.foldl (fun d e => alistBump e.to_node (alistBump e.from_node d)) []
  let top := topKeys deg params.top_entities
  { meta := [("graph_type", "EE"), ("generated_at", toString now)],
    nodes := (ne.1.filter (fun kv => top.contains kv.1)).map Prod.snd,
    edges := (ne.2.filter (fun e =>
      top.contains e.from_node && top.contains e.to_node)).take params.max_edges }

/-- One iteration of the EE_EVO grouping loop (`build_ee_evo` lines
257-273). -/
def eeEvoGroupStep (entMap : List (String × String)) (params : SnapshotParams)
    (now : Int)
    (groups : List ((String × String × String) × List (String × List String)))
    (r : RelRow) :
    List ((String × String × String) × List (String × List String)) :=
  let s := (alistFind r.subject_entity_id entMap).getD ""
  let o := (alistFind r.object_entity_id entMap).getD ""
  let p := pyStrip r.predicate
  let t := if pyStrip r.time = "" then toString now else pyStrip r.time
  if s = "" ∨ o = "" ∨ p = "" then groups
  else if ¬ filter_by_days_window t params.days_window now then groups
  else
    let evList := (r.evidence.filter (fun x => pyStrip x != "")).map pyStrip
    alistPush (s, p, o) (t, evList) groups

/-- The interval-splitting loop of `build_ee_evo` (lines 281-292): walk
the time-sorted sequence, start a new interval when both the previous
and the current timestamp parse and their gap exceeds `gap` (an
unparseable timestamp keeps the previous `last_dt`). -/
def splitGo (gap : Int) :
    List (String × List String) → List (String × List String) → Option Int →
    List (List (String × List String))
  | [], cur, _ => if cur = [] then [] else [cur]
  | te :: rest, cur, lastDt =>
    let dt := parse_iso te.1
    let startNew :=
      match lastDt, dt with
      | some l, some d => decide (gap < d - l) && !cur.isEmpty
      | _, _ => false
    let newLast := if dt.isSome then dt else lastDt
    if startNew then cur :: splitGo gap rest [te] newLast
    else splitGo gap rest (cur ++ [te]) newLast

/-- `splitIntervals`: sort one group's `(time, evidence)` sequence by
time and split it at gaps exceeding `gap` days. -/
def splitIntervals (gap : Int) (seq : List (String × List String)) :
    List (List (String × List String)) :=
  splitGo gap (pySorted (fun x y => strLe x.1 y.1) seq) [] none

/-- Order-preserving flattening of an interval's evidence lists
(`evs_flat`, `build_ee_evo` lines 301-305). -/
def evsFlat (itv : List (String × List String)) : List String :=
  itv.foldl (fun acc te => te.2.foldl (fun acc e =>
    if acc.contains e then acc else acc ++ [e]) acc) []

/-- The `relation_state` node of one interval (`build_ee_evo` lines
306-313). -/
def relStateNode (s p o : String) (idx : Nat)
    (itv : List (String × List String)) : Node :=
  let t0 := (itv.headD ("", [])).1
  let t1 := (itv.getLastD ("", [])).1
  { id := "REL:" ++ s ++ "|" ++ p ++ "|" ++ o ++ "|" ++ toString idx,
    label := p, type := "relation_state", color := "#999999",
    time := some t0,
    attrs := some { valid_from := t0, valid_to := t1,
                    evidence := (evsFlat itv).take 5 } }

/-- Per-group rendering of `build_ee_evo` (lines 294-315): ensure the
two entity nodes, then add one `relation_state` node and the
`rel_in`/`rel_out` edge pair per interval. -/
def eeEvoRenderGroup (st : List (String × Node) × List Edge)
    (g : (String × String × String) × List (String × List String))
    (gap : Int) : List (String × Node) × List Edge :=
  let s := g.1.1
  let p := g.1.2.1
  let o := g.1.2.2
  let intervals := splitIntervals gap g.2
  let nodes := ensureNode s (entNodeOf s) st.1
  let nodes := ensureNode o (entNodeOf o) nodes
  intervals.enum.foldl (fun st iv =>
    let rn := relStateNode s p o iv.1 iv.2
    let t0 := (iv.2.headD ("", [])).1
    let e1 : Edge :=
      { from_node := s, to_node := rn.id, type := "rel_in",
        title := "rel", time := t0 }
    let e2 : Edge :=
      { from_node := rn.id, to_node := o, type := "rel_out",
        title := "rel", time := t0 }
    (alistSet rn.id rn st.1, st.2 ++ [e1, e2])) (nodes, st.2)

/-- `SnapshotService.build_ee_evo`. -/
def build_ee_evo (rows_entities : List EntityRow) (rows_rels : List RelRow)
    (params : SnapshotParams) (now : Int) : Doc :=
  let entMap := loadEntityMap rows_entities
  let groups := rows_rels.foldl (eeEvoGroupStep entMap params now) []
  let ne := groups.foldl (fun st g => eeEvoRenderGroup st g params.gap_days)
    ([], [])
  { meta := [("graph_type", "EE_EVO"), ("generated_at", toString now)],
    nodes := (ne.1.map Prod.snd).take (params.top_entities + params.top_events),
    edges := ne.2.take params.max_edges }

/-- One iteration of the EVENT_EVO edge loop (`build_event_evo` lines
330-354). -/
def evEvoEdgeStep (evtIdToAbs : List (String × String))
    (absMap : List (String × EventRow)) (params : SnapshotParams) (now : Int)
    (st : List (String × Node) × List Edge) (r : EventEdgeFetched) :
    List (String × Node) × List Edge :=
  let a := (alistFind r.from_event_id evtIdToAbs).getD ""
  let b := (alistFind r.to_event_id evtIdToAbs).getD ""
  if a = "" ∨ b = "" then st
  else
    let ea := (alistFind a absMap).getD default
    let t := edge_time_fallback [r.time, ea.event_start_time, ea.reported_at] now
    if ¬ filter_by_days_window t params.days_window now then st
    else
      let na := "EVT:" ++ a
      let nb := "EVT:" ++ b
      let nodes := ensureNode na (evtNodeOf na a (alistFind a absMap) now) st.1
      let nodes := ensureNode nb (evtNodeOf nb b (alistFind b absMap) now) nodes
      let e : Edge :=
        { from_node := na, to_node := nb, type := "event_edge",
          title := if r.edge_type = "" then "related" else r.edge_type,
          time := t, confidence := some r.confidence,
          evidence := some (r.evidence.take 5) }
      (nodes, st.2 ++ [e])

/-- The victim/affected role marker test (`build_event_evo` line 372):
the role contains one of the three CJK markers. -/
def hasAffectedMarker (roles : List String) : Bool :=
  roles.any (fun x =>
    containsSub "被".data x.data || containsSub "受".data x.data
      || containsSub "遭".data x.data)

/-- One iteration of the EVENT_EVO `affects` loop (`build_event_evo`
lines 357-376). -/
def evEvoAffectsStep (entMap : List (String × String))
    (absMap : List (String × EventRow)) (params : SnapshotParams) (now : Int)
    (st : List (String × Node) × List Edge) (r : PartRow) :
    List (String × Node) × List Edge :=
  let absKey := r.abstract
  let evtNode := "EVT:" ++ absKey
  let entName := (alistFind r.entity_id entMap).getD ""
  if absKey = "" ∨ entName = "" then st
  else
    let ea := (alistFind absKey absMap).getD default
    let t := edge_time_fallback [r.time, ea.reported_at] now
    if ¬ filter_by_days_window t params.days_window now then st
    else if ¬ hasAffectedMarker r.roles then st
    else
      let nodes := ensureNode evtNode
        { id := evtNode,
          label := pyTake (if r.event_summary = "" then absKey
                           else r.event_summary) 80,
          type := "event", color := "#ff7f0e" } st.1
      let nodes := ensureNode entName (entNodeOf entName) nodes
      let e : Edge :=
        { from_node := evtNode, to_node := entName, type := "affects",
          title := "affects", time := t }
      (nodes, st.2 ++ [e])

/-- `SnapshotService.build_event_evo`. -/
def build_event_evo (rows_entities : List EntityRow)
    (rows_events : List EventRow) (rows_edges : List EventEdgeFetched)
    (rows_parts : List PartRow) (params : SnapshotParams) (now : Int) : Doc :=
  let entMap := loadEntityMap rows_entities
  let evtIdToAbs := loadEvtIdToAbs rows_events
  let absMap := loadAbsToEvt rows_events
  let st := rows_edges.foldl (evEvoEdgeStep evtIdToAbs absMap params now)
    ([], [])
  let st := rows_parts.foldl (evEvoAffectsStep entMap absMap params now) st
  { meta := [("graph_type", "EVENT_EVO"), ("generated_at", toString now)],
    nodes := st.1.map Prod.snd,
    edges := st.2.take params.max_edges }

/-- The node/edge counts `JsonSnapshotReader.read` derives when
re-reading an exported snapshot document
(`src/adapters/export/json_adapter.py` lines 112-113): the lengths of
the document's `nodes` and `edges` arrays. -/
def readerCounts (d : Doc) : Nat × Nat := (d.nodes.length, d.edges.length)

/-! # Theorems -/

/-- Claim C1: every `RelationTriple`, `EventEdge` and `Participant` the
system persists has a non-null time — `validate()` on each record type
returns false whenever `time` is null, and every event edge written by
`apply_event_merge_or_evolve_decisions` is stored with a non-empty
time, falling back to the current UTC time when both candidate events
lack one. -/
theorem claim_C1_time_invariant :
    (∀ r : RelationTriple, r.time = none → r.validate = false) ∧
    (∀ e : EventEdge, e.time = none → e.validate = false) ∧
    (∀ p : Participant, p.time = none → p.validate = false) ∧
    (∀ aId bId et conf ev ih ta tb now, now ≠ "" →
      (evolve_edge_row aId bId et conf ev ih ta tb now).time ≠ "") ∧
    (∀ now : String, evolve_edge_time "" "" now = now) := by
  refine ⟨?_, ?_, ?_, ?_, ?_⟩
  · intro r h
    simp [RelationTriple.validate, h]
  · intro e h
    simp [EventEdge.validate, h]
  · intro p h
    simp [Participant.validate, h]
  · intro aId bId et conf ev ih ta tb now hnow
    show evolve_edge_time ta tb now ≠ ""
    unfold evolve_edge_time
    by_cases h : (pyStrip (if ta = "" then tb else ta)) = ""
    · rw [if_pos h]
      exact hnow
    · rw [if_neg h]
      exact h
  · intro now
    have h : (pyStrip (if ("" : String) = "" then "" else "")) = "" := by decide
    unfold evolve_edge_time
    rw [if_pos h]

/-- Witness for C1 at concrete records and a concrete clock reading. -/
theorem claim_C1_time_invariant_witness :
    ({ time := none : RelationTriple }).validate = false ∧
    ({ time := none : EventEdge }).validate = false ∧
    ({ time := none : Participant }).validate = false ∧
    (evolve_edge_row "evA" "evB" "escalates" (8/10) [] "h1" "" ""
      "2025-01-01T00:00:00+00:00").time ≠ "" :=
  ⟨claim_C1_time_invariant.1 _ rfl,
   claim_C1_time_invariant.2.1 _ rfl,
   claim_C1_time_invariant.2.2.1 _ rfl,
   claim_C1_time_invariant.2.2.2.1 "evA" "evB" "escalates" (8/10) [] "h1"
     "" "" "2025-01-01T00:00:00+00:00" (by decide)⟩

/-! ### C3: idempotent event-edge upsert -/

theorem edgeKeyMatch_edgeUpdate (row r : EventEdgeRow) :
    edgeKeyMatch (edgeUpdate row r) row = edgeKeyMatch r row := by
  unfold edgeUpdate
  split <;> rfl

theorem edgeUpdate_idem (row r : EventEdgeRow) :
    edgeUpdate row (edgeUpdate row r) = edgeUpdate row r := by
  by_cases h : edgeKeyMatch r row = true
  · have hinner : edgeUpdate row r =
        ⟨r.from_event_id, r.to_event_id, r.edge_type, row.time,
         row.reported_at, row.confidence, row.evidence,
         r.decision_input_hash⟩ := by
      rw [edgeUpdate, if_pos h]
    rw [hinner]
    have h2 : edgeKeyMatch
        (⟨r.from_event_id, r.to_event_id, r.edge_type, row.time,
          row.reported_at, row.confidence, row.evidence,
          r.decision_input_hash⟩ : EventEdgeRow) row = true := h
    rw [edgeUpdate, if_pos h2]
  · have hinner : edgeUpdate row r = r := by
      rw [edgeUpdate, if_neg h]
    rw [hinner, edgeUpdate, if_neg h]

theorem edgeKeyMatch_refl (r : EventEdgeRow) : edgeKeyMatch r r = true := by
  simp [edgeKeyMatch]

theorem edgeUpdate_self (row : EventEdgeRow) : edgeUpdate row row = row := by
  rw [edgeUpdate, if_pos (edgeKeyMatch_refl row)]

/-- Claim C3: the event-edge upsert on the natural key
`(from_event_id, to_event_id, edge_type)` updates the colliding row
instead of inserting a second one; applying the same evolve decision
twice leaves the table identical to applying it once, with exactly one
row for that key. -/
theorem claim_C3_upsert_idempotent :
    (∀ (tbl : List EventEdgeRow) (row : EventEdgeRow),
      upsert_event_edge (upsert_event_edge tbl row) row =
        upsert_event_edge tbl row) ∧
    (∀ (tbl : List EventEdgeRow) (row : EventEdgeRow),
      tbl.countP (fun r => edgeKeyMatch r row) ≤ 1 →
      (upsert_event_edge tbl row).countP (fun r => edgeKeyMatch r row) = 1) := by
  constructor
  · intro tbl row
    by_cases h : tbl.any (fun r => edgeKeyMatch r row) = true
    · have hin : upsert_event_edge tbl row = tbl.map (edgeUpdate row) := by
        unfold upsert_event_edge
        rw [if_pos h]
      rw [hin]
      have hany : (tbl.map (edgeUpdate row)).any (fun r => edgeKeyMatch r row)
          = true := by
        rw [List.any_map]
        refine List.any_eq_true.mpr ?_
        obtain ⟨r, hr, hm⟩ := List.any_eq_true.mp h
        exact ⟨r, hr, by simpa [Function.comp, edgeKeyMatch_edgeUpdate] using hm⟩
      unfold upsert_event_edge
      rw [if_pos hany, List.map_map]
      refine List.map_congr_left ?_
      intro r _
      exact edgeUpdate_idem row r
    · have hin : upsert_event_edge tbl row = tbl ++ [row] := by
        unfold upsert_event_edge
        rw [if_neg h]
      rw [hin]
      have hnone : ∀ r ∈ tbl, ¬ edgeKeyMatch r row = true := by
        intro r hr hm
        exact h (List.any_eq_true.mpr ⟨r, hr, hm⟩)
      have hany : ((tbl ++ [row]).any (fun r => edgeKeyMatch r row)) = true := by
        simp [edgeKeyMatch_refl]
      unfold upsert_event_edge
      rw [if_pos hany, List.map_append]
      have h1 : tbl.map (edgeUpdate row) = tbl := by
        conv_rhs => rw [← List.map_id tbl]
        refine List.map_congr_left ?_
        intro r hr
        rw [edgeUpdate, if_neg (hnone r hr)]
        rfl
      rw [h1]
      simp [edgeUpdate_self]
  · intro tbl row hle
    by_cases h : tbl.any (fun r => edgeKeyMatch r row) = true
    · have hin : upsert_event_edge tbl row = tbl.map (edgeUpdate row) := by
        unfold upsert_event_edge
        rw [if_pos h]
      rw [hin]
      have hc : (tbl.map (edgeUpdate row)).countP (fun r => edgeKeyMatch r row)
          = tbl.countP (fun r => edgeKeyMatch r row) := by
        rw [List.countP_map]
        refine List.countP_congr ?_
        intro r _
        simp [Function.comp, edgeKeyMatch_edgeUpdate]
      rw [hc]
      have hpos : 0 < tbl.countP (fun r => edgeKeyMatch r row) := by
        obtain ⟨r, hr, hm⟩ := List.any_eq_true.mp h
        exact List.countP_pos_iff.mpr ⟨r, hr, hm⟩
      omega
    · have hin : upsert_event_edge tbl row = tbl ++ [row] := by
        unfold upsert_event_edge
        rw [if_neg h]
      rw [hin]
      have hz : tbl.countP (fun r => edgeKeyMatch r row) = 0 := by
        refine List.countP_eq_zero.mpr ?_
        intro r hr hm
        exact h (List.any_eq_true.mpr ⟨r, hr, hm⟩)
      rw [List.countP_append, hz]
      simp [edgeKeyMatch_refl]

/-- Witness for C3 at the empty table and a concrete edge row. -/
theorem claim_C3_upsert_idempotent_witness :
    (upsert_event_edge []
      ⟨"evA", "evB", "escalates", "5", "6", 8/10, [], "h1"⟩).countP
        (fun r => edgeKeyMatch r ⟨"evA", "evB", "escalates", "5", "6", 8/10, [], "h1"⟩)
      = 1 :=
  claim_C3_upsert_idempotent.2 []
    ⟨"evA", "evB", "escalates", "5", "6", 8/10, [], "h1"⟩ (by decide)

/-! ### C4: SimHash duplicate detection -/

theorem hamming_distance_comm (a b : Nat) :
    hamming_distance a b = hamming_distance b a := by
  unfold hamming_distance
  rw [Nat.xor_comm]

theorem simhashBits_lt (hs : List Nat) : ∀ n, simhashBits hs n < 2 ^ n := by
  intro n
  induction n with
  | zero => simp [simhashBits]
  | succ n ih =>
    have hb : (if 0 < voteSum hs n then 2 ^ n else 0) ≤ 2 ^ n := by
      split <;> simp
    have hp : (2 : Nat) ^ (n + 1) = 2 ^ n + 2 ^ n := by
      rw [pow_succ]
      omega
    simp only [simhashBits]
    omega

/-- Claim C4: if `hamming(simhash(a), simhash(b)) ≤ threshold` and
`is_duplicate(a)` was called first and returned false (recording `a`'s
hash in the batch-scoped seen set), then `is_duplicate(b)` returns
true; and `simhash` computes a 64-bit value (a per-bit majority vote
over the token digests, below `2^64`). -/
theorem claim_C4_dedup :
    (∀ (md5 : String → Nat) (threshold : Nat) (seen : List Nat) (a b : String),
      hamming_distance (simhash md5 a) (simhash md5 b) ≤ threshold →
      (is_duplicate md5 threshold seen a).1 = false →
      (is_duplicate md5 threshold
        ((is_duplicate md5 threshold seen a).2) b).1 = true) ∧
    (∀ (md5 : String → Nat) (text : String), simhash md5 text < 2 ^ 64) := by
  constructor
  · intro md5 th seen a b hdist hfalse
    by_cases h : seen.any
        (fun s => hamming_distance (simhash md5 a) s ≤ th) = true
    · exfalso
      unfold is_duplicate at hfalse
      rw [if_pos h] at hfalse
      exact Bool.true_eq_false.mp hfalse
    · have h2 : (is_duplicate md5 th seen a).2 = seen ++ [simhash md5 a] := by
        unfold is_duplicate
        rw [if_neg h]
      rw [h2]
      unfold is_duplicate
      have hany : (seen ++ [simhash md5 a]).any
          (fun s => hamming_distance (simhash md5 b) s ≤ th) = true := by
        refine List.any_eq_true.mpr ⟨simhash md5 a, by simp, ?_⟩
        simp only [decide_eq_true_eq]
        rw [hamming_distance_comm]
        exact hdist
      rw [if_pos hany]
  · intro md5 text
    exact simhashBits_lt _ 64

/-- Witness for C4: with a constant digest the second occurrence of the
same text is reported a duplicate. -/
theorem claim_C4_dedup_witness :
    (is_duplicate (fun _ => 0) 3
      ((is_duplicate (fun _ => 0) 3 [] "x").2) "x").1 = true :=
  claim_C4_dedup.1 (fun _ => 0) 3 [] "x" "x" (by decide) (by decide)

/-! ### C2: idempotent entity merge -/

theorem find?_filter_ne (l : List EntityRec) (x : String) :
    (l.filter (fun e => e.entity_id != x)).find? (fun e => e.entity_id == x)
      = none := by
  refine List.find?_eq_none.mpr ?_
  intro e he
  have hne := List.of_mem_filter he
  simp only [bne_iff_ne, ne_eq] at hne
  simp [hne]

theorem merge_entities_skipped (st : Store) (x y : String)
    (h : st.entities.find? (fun e => e.entity_id == x) = none) :
    merge_entities st x y = ("skipped", st) := by
  unfold merge_entities
  rw [h]

theorem merge_entities_no_from (st : Store) (x y : String) :
    ((merge_entities st x y).2).entities.find? (fun e => e.entity_id == x)
      = none := by
  unfold merge_entities
  cases hf : st.entities.find? (fun e => e.entity_id == x) with
  | none => exact hf
  | some fr => exact find?_filter_ne _ _

theorem merge_entities_not_merged (st : Store) (x y : String)
    (h : (merge_entities st x y).1 ≠ "merged") :
    merge_entities st x y = ("skipped", st) := by
  cases hf : st.entities.find? (fun e => e.entity_id == x) with
  | none => exact merge_entities_skipped st x y hf
  | some fr =>
    exfalso
    apply h
    unfold merge_entities
    rw [hf]

/-- Claim C2: entity merge is idempotent — after a first
`apply_entity_merge(x, y, ...)` the from-record no longer exists, so a
second call is a no-op returning `skipped` with the store unchanged;
and `apply_entity_merge_decisions` counts the repeat of a decision as
`skipped` rather than `applied` (re-running a decision leaves the store
unchanged with counters `(applied, skipped) = (0, 1)`). -/
theorem claim_C2_merge_idempotent :
    (∀ (st : Store) (x y : String),
      merge_entities (merge_entities st x y).2 x y
        = ("skipped", (merge_entities st x y).2)) ∧
    (∀ (d : EntityDecision) (tm : List (String × (String × String)))
        (maxA : Nat) (st : Store), 1 ≤ maxA →
      apply_entity_merge_decisions [d] tm maxA
          ((apply_entity_merge_decisions [d] tm maxA st).1)
        = ((apply_entity_merge_decisions [d] tm maxA st).1, 0, 1)) := by
  constructor
  · intro st x y
    exact merge_entities_skipped _ _ _ (merge_entities_no_from st x y)
  · intro d tm maxA st hmax
    have hlt : ¬ (maxA ≤ 0) := by omega
    cases hdec : decideMergeNames tm d with
    | none =>
      simp [apply_entity_merge_decisions, applyDecisionsGo, hdec, hlt]
    | some tf =>
      simp only [apply_entity_merge_decisions, applyDecisionsGo, hdec,
        if_neg hlt]
      by_cases hmg : (merge_entities st (canonical_entity_id tf.2)
          (canonical_entity_id tf.1)).1 = "merged"
      · rw [if_pos hmg]
        rw [merge_entities_skipped _ _ _ (merge_entities_no_from st _ _)]
        simp
      · rw [if_neg hmg]
        have hres := merge_entities_not_merged st _ _ hmg
        rw [hres]
        simp only [applyDecisionsGo]
        rw [hres]
        simp

/-- Witness for C2: re-running a single merge decision on the resulting
store applies nothing and skips it once. -/
theorem claim_C2_merge_idempotent_witness :
    apply_entity_merge_decisions [⟨"h1", some "Apple"⟩]
        [("h1", ("Apple", "Apple Inc"))] 1
        ((apply_entity_merge_decisions [⟨"h1", some "Apple"⟩]
          [("h1", ("Apple", "Apple Inc"))] 1 ⟨[], [], []⟩).1)
      = ((apply_entity_merge_decisions [⟨"h1", some "Apple"⟩]
          [("h1", ("Apple", "Apple Inc"))] 1 ⟨[], [], []⟩).1, 0, 1) :=
  claim_C2_merge_idempotent.2 _ _ 1 _ (by decide)

/-! ### C5: candidate priorities, C6: example scenario -/

theorem ratTimes100_eq (q : ℚ) : (ratTimes100 q : ℚ) = q * 100 := by
  rw [ratTimes100, Rat.mkRat_eq_div]
  push_cast
  rw [mul_div_right_comm, Rat.num_div_den]

theorem enqueueLoop_priority :
    ∀ (pairs : List CandPair) (seen : List (String × String)),
      ∀ t ∈ enqueueLoop pairs seen,
        t.priority = pyInt (ratTimes100 t.similarity) := by
  intro pairs
  induction pairs with
  | nil => intro seen t ht; simp [enqueueLoop] at ht
  | cons c rest ih =>
    intro seen t ht
    unfold enqueueLoop at ht
    by_cases hk : sortedPair c.a c.b ∈ seen
    · rw [if_pos hk] at ht
      exact ih seen t ht
    · rw [if_neg hk] at ht
      rcases List.mem_cons.mp ht with h | h
      · subst h
        rfl
      · exact ih _ t h

/-- Counterexample to C5 as stated: the entity pair
`("aaaaaaaaaaaaab", "aaaaaaaaaaaaac")` has similarity `13/14`; the code
enqueues it with priority `int(13/14*100) = 92`, whereas
`round(13/14*100) = 93`. -/
theorem claim_C5_counterexample :
    ((enqueue_entity_merge_candidates
        [("aaaaaaaaaaaaab", []), ("aaaaaaaaaaaaac", [])]
        (mkRat 92 100) 200).map (fun t => (t.priority, t.similarity))
      = [(92, mkRat 13 14)]) ∧
    round ((mkRat 13 14 : ℚ) * 100) = 93 ∧ (92 : ℤ) ≠ 93 := by
  refine ⟨by set_option maxRecDepth 8000 in decide, ?_, by decide⟩
  have h1 : (mkRat 13 14 : ℚ) = 13 / 14 := by
    rw [Rat.mkRat_eq_div]
    norm_num
  rw [h1, round_eq]
  norm_num

/-- Claim C5 (amended): every entity-merge candidate is enqueued with
priority `int(similarity * 100)` — Python `int()` truncation toward
zero, which differs from `round` when the fractional part reaches
one half — and every event merge-or-evolve candidate with priority
`min(100, shared * 10)`. -/
theorem claim_C5_priority_formulas :
    (∀ (entities : List (String × List String)) (minSim : ℚ) (maxPairs : Nat),
      ∀ t ∈ enqueue_entity_merge_candidates entities minSim maxPairs,
        t.priority = pyInt (t.similarity * 100)) ∧
    (∀ (items : List EventItem) (maxPairs sharedMin : Nat),
      ∀ t ∈ enqueue_event_merge_or_evolve_candidates items maxPairs sharedMin,
        t.priority = min 100 (t.shared_entities * 10)) := by
  constructor
  · intro entities minSim maxPairs t ht
    have h := enqueueLoop_priority _ _ t ht
    rw [h, ratTimes100_eq]
  · intro items maxPairs sharedMin t ht
    unfold enqueue_event_merge_or_evolve_candidates at ht
    rcases List.mem_filterMap.mp ht with ⟨c, _, hf⟩
    by_cases hs : c.2 < sharedMin
    · rw [if_pos hs] at hf
      cases hf
    · rw [if_neg hs] at hf
      cases hf
      rfl

/-- Witness for C5 at the concrete similarity-candidate run. -/
theorem claim_C5_priority_formulas_witness :
    (⟨"aaaaaaaaaaaaab", "aaaaaaaaaaaaac", mkRat 13 14, "name_similarity",
        92⟩ : EntityMergeTask).priority
      = pyInt ((⟨"aaaaaaaaaaaaab", "aaaaaaaaaaaaac", mkRat 13 14,
          "name_similarity", 92⟩ : EntityMergeTask).similarity * 100) :=
  claim_C5_priority_formulas.1
    [("aaaaaaaaaaaaab", []), ("aaaaaaaaaaaaac", [])] (mkRat 92 100) 200 _
    (by set_option maxRecDepth 8000 in decide)

/-- Claim C6: on the entity set
`["Apple Inc.", "Apple Inc", "Orange Corp"]` with
`min_similarity = 0.92`, candidate generation enqueues exactly one
pair, `("Apple Inc.", "Apple Inc")` (an `original_forms_match` with
similarity 1.0 and priority 100), and no pair involving
`"Orange Corp"`. -/
theorem claim_C6_example_scenario :
    enqueue_entity_merge_candidates
        [("Apple Inc.", []), ("Apple Inc", []), ("Orange Corp", [])]
        (mkRat 92 100) 200
      = [⟨"Apple Inc.", "Apple Inc", 1, "original_forms_match", 100⟩] := by
  set_option maxRecDepth 8000 in decide

/-! ### C8: snapshot meta contents and read-back counts -/

/-- Counterexample to C8 as stated: the meta object written by
`SnapshotService.build_ge` has no `node_count` entry. -/
theorem claim_C8_counterexample :
    ¬ ("node_count" ∈ alistKeys (build_ge [] [] [] {} 0).meta) := by decide

/-- Claim C8 (amended): each of the five snapshot documents carries a
meta object with exactly `graph_type` and `generated_at`;
`node_count`/`edge_count` are not stored — on re-reading,
`JsonSnapshotReader` derives them as the lengths of the document's
`nodes` and `edges` arrays, which are exactly the arrays computed live
at export time. -/
theorem claim_C8_meta_and_roundtrip :
    ∀ (re : List EntityRow) (rv : List EventRow) (rp : List PartRow)
      (rr : List RelRow) (rx : List EventEdgeFetched)
      (params : SnapshotParams) (now : Int),
      alistKeys (build_ge re rv rp params now).meta
        = ["graph_type", "generated_at"] ∧
      alistKeys (build_get re rv rp params now).meta
        = ["graph_type", "generated_at"] ∧
      alistKeys (build_ee re rr params now).meta
        = ["graph_type", "generated_at"] ∧
      alistKeys (build_ee_evo re rr params now).meta
        = ["graph_type", "generated_at"] ∧
      alistKeys (build_event_evo re rv rx rp params now).meta
        = ["graph_type", "generated_at"] ∧
      readerCounts (build_ge re rv rp params now)
        = ((build_ge re rv rp params now).nodes.length,
           (build_ge re rv rp params now).edges.length) := by
  intro re rv rp rr rx params now
  exact ⟨rfl, rfl, rfl, rfl, rfl, rfl⟩

/-! ### C9: projection determinism and edge caps -/

/-- Counterexample to C9 as stated: on a participant row with no
timestamp at all, two `build_ge` calls on identical rows and params at
different instants differ in the edges array (the edge `time` falls
back to the clock), not merely in `meta.generated_at`. -/
theorem claim_C9_counterexample :
    (build_ge [⟨"E1", "S", ""⟩] [⟨"EV1", "A", "sum", "[]", "", "", ""⟩]
      [⟨"", "", "", "", "A", "E1", "sum", []⟩] {} 100).edges ≠
    (build_ge [⟨"E1", "S", ""⟩] [⟨"EV1", "A", "sum", "[]", "", "", ""⟩]
      [⟨"", "", "", "", "A", "E1", "sum", []⟩] {} 200).edges := by decide

/-- Claim C9 (amended): each view builder is a deterministic function
of the store rows, the params and the current instant (the clock enters
through the edge-time fallback and the days-window cutoff, so calls at
different instants may differ beyond `generated_at`), and every view's
edge list is capped at `max_edges` by simple truncation. -/
theorem claim_C9_edge_cap :
    ∀ (re : List EntityRow) (rv : List EventRow) (rp : List PartRow)
      (rr : List RelRow) (rx : List EventEdgeFetched)
      (params : SnapshotParams) (now : Int),
      (build_ge re rv rp params now).edges.length ≤ params.max_edges ∧
      (build_get re rv rp params now).edges.length ≤ params.max_edges ∧
      (build_ee re rr params now).edges.length ≤ params.max_edges ∧
      (build_ee_evo re rr params now).edges.length ≤ params.max_edges ∧
      (build_event_evo re rv rx rp params now).edges.length
        ≤ params.max_edges := by
  intro re rv rp rr rx params now
  exact ⟨List.length_take_le _ _, List.length_take_le _ _,
    List.length_take_le _ _, List.length_take_le _ _,
    List.length_take_le _ _⟩

/-! ### C10: endpoint closure of the pruned views -/

theorem alistKeys_cons {κ α : Type} (p : κ × α) (rest : List (κ × α)) :
    alistKeys (p :: rest) = p.1 :: alistKeys rest := rfl

theorem mem_alistKeys {κ α : Type} (k : κ) (m : List (κ × α)) :
    k ∈ alistKeys m ↔ ∃ p ∈ m, p.1 = k := by
  unfold alistKeys
  exact List.mem_map

theorem alistKeys_alistSet_mono {κ α : Type} [DecidableEq κ] (k : κ) (v : α)
    (m : List (κ × α)) : ∀ a ∈ alistKeys m, a ∈ alistKeys (alistSet k v m) := by
  induction m with
  | nil => intro a ha; simp [alistKeys] at ha
  | cons p rest ih =>
    intro a ha
    rw [alistKeys_cons] at ha
    unfold alistSet
    by_cases hk : p.1 = k
    · rw [if_pos hk, alistKeys_cons]
      rcases List.mem_cons.mp ha with h | h
      · exact h ▸ List.mem_cons_self _ _
      · exact List.mem_cons_of_mem _ h
    · rw [if_neg hk, alistKeys_cons]
      rcases List.mem_cons.mp ha with h | h
      · exact h ▸ List.mem_cons_self _ _
      · exact List.mem_cons_of_mem _ (ih a h)

theorem mem_alistKeys_alistSet_self {κ α : Type} [DecidableEq κ] (k : κ)
    (v : α) (m : List (κ × α)) : k ∈ alistKeys (alistSet k v m) := by
  induction m with
  | nil => simp [alistSet, alistKeys]
  | cons p rest ih =>
    unfold alistSet
    by_cases hk : p.1 = k
    · rw [if_pos hk, alistKeys_cons]
      exact List.mem_cons.mpr (Or.inl hk.symm)
    · rw [if_neg hk, alistKeys_cons]
      exact List.mem_cons_of_mem _ ih

theorem alistSet_mem_elim {κ α : Type} [DecidableEq κ] (k : κ) (v : α)
    (m : List (κ × α)) : ∀ p ∈ alistSet k v m, p = (k, v) ∨ p ∈ m := by
  induction m with
  | nil => intro p hp; simp [alistSet] at hp; left; exact hp
  | cons q rest ih =>
    intro p hp
    unfold alistSet at hp
    by_cases hk : q.1 = k
    · rw [if_pos hk] at hp
      rcases List.mem_cons.mp hp with h | h
      · left
        rw [h, hk]
      · right
        exact List.mem_cons_of_mem _ h
    · rw [if_neg hk] at hp
      rcases List.mem_cons.mp hp with h | h
      · right
        rw [h]
        exact List.mem_cons_self _ _
      · rcases ih p h with h2 | h2
        · left; exact h2
        · right; exact List.mem_cons_of_mem _ h2

theorem alistFind_isSome_mem {κ α : Type} [DecidableEq κ] (k : κ)
    (m : List (κ × α)) (h : (alistFind k m).isSome = true) :
    k ∈ alistKeys m := by
  induction m with
  | nil => simp [alistFind] at h
  | cons p rest ih =>
    unfold alistFind at h
    by_cases hk : p.1 = k
    · rw [alistKeys_cons]
      exact List.mem_cons.mpr (Or.inl hk.symm)
    · rw [if_neg hk] at h
      rw [alistKeys_cons]
      exact List.mem_cons_of_mem _ (ih h)

theorem alistPush_mem_elim {κ α : Type} [DecidableEq κ] (k : κ) (v : α)
    (m : List (κ × List α)) : ∀ g ∈ alistPush k v m,
      g ∈ m ∨ (∃ vs, (k, vs) ∈ m ∧ g = (k, vs ++ [v])) ∨ g = (k, [v]) := by
  induction m with
  | nil =>
    intro g hg
    simp [alistPush] at hg
    right; right
    exact hg
  | cons q rest ih =>
    intro g hg
    unfold alistPush at hg
    by_cases hk : q.1 = k
    · rw [if_pos hk] at hg
      rcases List.mem_cons.mp hg with h | h
      · right; left
        refine ⟨q.2, ?_, by rw [h, hk]⟩
        have hq : (k, q.2) = q := by
          rw [← hk]
        rw [hq]
        exact List.mem_cons_self _ _
      · left
        exact List.mem_cons_of_mem _ h
    · rw [if_neg hk] at hg
      rcases List.mem_cons.mp hg with h | h
      · left
        rw [h]
        exact List.mem_cons_self _ _
      · rcases ih g h with h2 | h2 | h2
        · left; exact List.mem_cons_of_mem _ h2
        · right; left
          obtain ⟨vs, hvs, hgeq⟩ := h2
          exact ⟨vs, List.mem_cons_of_mem _ hvs, hgeq⟩
        · right; right; exact h2

theorem insertLe_mem {α : Type} (le : α → α → Bool) (x a : α) :
    ∀ l : List α, a ∈ insertLe le x l ↔ a = x ∨ a ∈ l := by
  intro l
  induction l with
  | nil => simp [insertLe]
  | cons y ys ih =>
    unfold insertLe
    by_cases hc : (le y x && !le x y) = true
    · rw [if_pos hc]
      simp only [List.mem_cons, ih]
      tauto
    · rw [if_neg hc]
      simp only [List.mem_cons]

theorem pySorted_mem {α : Type} (le : α → α → Bool) (a : α) :
    ∀ l : List α, a ∈ pySorted le l ↔ a ∈ l := by
  intro l
  induction l with
  | nil => simp [pySorted]
  | cons x xs ih =>
    unfold pySorted
    rw [insertLe_mem, ih]
    simp

theorem consecPairs_mem {α : Type} (p : α × α) :
    ∀ l : List α, p ∈ consecPairs l → p.1 ∈ l ∧ p.2 ∈ l := by
  intro l
  induction l with
  | nil => intro h; simp [consecPairs] at h
  | cons a rest ih =>
    intro h
    match rest, h with
    | b :: rest2, h =>
      unfold consecPairs at h
      rcases List.mem_cons.mp h with h2 | h2
      · rw [h2]
        exact ⟨List.mem_cons_self _ _,
          List.mem_cons_of_mem _ (List.mem_cons_self _ _)⟩
      · have := ih h2
        exact ⟨List.mem_cons_of_mem _ this.1, List.mem_cons_of_mem _ this.2⟩

theorem foldl_inv {σ ρ : Type} (P : σ → Prop) (step : σ → ρ → σ) :
    ∀ (l : List ρ) (init : σ), P init → (∀ s r, P s → P (step s r)) →
      P (l.foldl step init) := by
  intro l
  induction l with
  | nil => intro init h _; exact h
  | cons r rest ih =>
    intro init h hstep
    exact ih (step init r) (hstep init r h) hstep

theorem ensureNode_keys_mono (k : String) (mk : Node)
    (nodes : List (String × Node)) :
    ∀ a ∈ alistKeys nodes, a ∈ alistKeys (ensureNode k mk nodes) := by
  intro a ha
  unfold ensureNode
  split
  · exact ha
  · exact alistKeys_alistSet_mono k mk nodes a ha

theorem mem_keys_ensureNode_self (k : String) (mk : Node)
    (nodes : List (String × Node)) : k ∈ alistKeys (ensureNode k mk nodes) := by
  unfold ensureNode
  split
  next h => exact alistFind_isSome_mem k nodes h
  next h => exact mem_alistKeys_alistSet_self k mk nodes

theorem ensureNode_mem_elim (k : String) (mk : Node)
    (nodes : List (String × Node)) :
    ∀ p ∈ ensureNode k mk nodes, p = (k, mk) ∨ p ∈ nodes := by
  intro p hp
  unfold ensureNode at hp
  split at hp
  · right; exact hp
  · exact alistSet_mem_elim k mk nodes p hp

/-- Shared final assembly of GE/GET/EE: after degree-based selection and
truncation, every kept edge's endpoints name nodes kept in the same
view. -/
theorem closure_assemble (nodes : List (String × Node)) (edges : List Edge)
    (top : List String) (maxe : Nat)
    (hinv : ∀ e ∈ edges, e.from_node ∈ alistKeys nodes
      ∧ e.to_node ∈ alistKeys nodes)
    (hid : ∀ p ∈ nodes, (Prod.snd p).id = p.1) :
    ∀ e ∈ (edges.filter (fun e =>
        top.contains e.from_node && top.contains e.to_node)).take maxe,
      (∃ n ∈ (nodes.filter (fun kv => top.contains kv.1)).map Prod.snd,
        n.id = e.from_node) ∧
      (∃ n ∈ (nodes.filter (fun kv => top.contains kv.1)).map Prod.snd,
        n.id = e.to_node) := by
  intro e het
  have hef := List.take_subset _ _ het
  have hmem := List.mem_filter.mp hef
  have hcontains := hmem.2
  rw [Bool.and_eq_true] at hcontains
  obtain ⟨hfrom, hto⟩ := hinv e hmem.1
  constructor
  · obtain ⟨p, hp, hpk⟩ := (mem_alistKeys _ _).mp hfrom
    refine ⟨p.2, ?_, by rw [hid p hp, hpk]⟩
    refine List.mem_map.mpr ⟨p, ?_, rfl⟩
    refine List.mem_filter.mpr ⟨hp, ?_⟩
    rw [hpk]
    exact hcontains.1
  · obtain ⟨p, hp, hpk⟩ := (mem_alistKeys _ _).mp hto
    refine ⟨p.2, ?_, by rw [hid p hp, hpk]⟩
    refine List.mem_map.mpr ⟨p, ?_, rfl⟩
    refine List.mem_filter.mpr ⟨hp, ?_⟩
    rw [hpk]
    exact hcontains.2

/-- Invariant of the GE fold: every accumulated edge's endpoints are
node keys, and every node's `id` is its key. -/
def GEInv (st : GEState) : Prop :=
  (∀ e ∈ st.edges, e.from_node ∈ alistKeys st.nodes
    ∧ e.to_node ∈ alistKeys st.nodes) ∧
  (∀ p ∈ st.nodes, (Prod.snd p).id = p.1)

theorem geStep_inv (entMap : List (String × String))
    (absMap : List (String × EventRow)) (params : SnapshotParams) (now : Int)
    (st : GEState) (r : PartRow) (h : GEInv st) :
    GEInv (geStep entMap absMap params now st r) := by
  simp only [geStep]
  split
  · exact h
  split
  · exact h
  constructor
  · intro e he
    rcases List.mem_append.mp he with hold | hnew
    · obtain ⟨h1, h2⟩ := h.1 e hold
      exact ⟨ensureNode_keys_mono _ _ _ _ (ensureNode_keys_mono _ _ _ _ h1),
        ensureNode_keys_mono _ _ _ _ (ensureNode_keys_mono _ _ _ _ h2)⟩
    · have he2 := List.mem_singleton.mp hnew
      subst he2
      exact ⟨mem_keys_ensureNode_self _ _ _,
        ensureNode_keys_mono _ _ _ _ (mem_keys_ensureNode_self _ _ _)⟩
  · intro p hp
    rcases ensureNode_mem_elim _ _ _ p hp with h1 | h1
    · rw [h1]
      rfl
    rcases ensureNode_mem_elim _ _ _ p h1 with h2 | h2
    · rw [h2]
      rfl
    exact h.2 p h2

/-- Invariant of the GET fold: edge endpoints and `by_ent` event nodes
are node keys, and each node's `id` is its key. -/
def GETInv (st : GETState) : Prop :=
  (∀ e ∈ st.edges, e.from_node ∈ alistKeys st.nodes
    ∧ e.to_node ∈ alistKeys st.nodes) ∧
  (∀ p ∈ st.nodes, (Prod.snd p).id = p.1) ∧
  (∀ g ∈ st.by_ent, ∀ q ∈ g.2, q.2 ∈ alistKeys st.nodes)

theorem getStep_inv (entMap : List (String × String))
    (absMap : List (String × EventRow)) (params : SnapshotParams) (now : Int)
    (st : GETState) (r : PartRow) (h : GETInv st) :
    GETInv (getStep entMap absMap params now st r) := by
  simp only [getStep]
  split
  · exact h
  split
  · exact h
  refine ⟨?_, ?_, ?_⟩
  · intro e he
    rcases List.mem_append.mp he with hold | hnew
    · obtain ⟨h1, h2⟩ := h.1 e hold
      exact ⟨ensureNode_keys_mono _ _ _ _ (ensureNode_keys_mono _ _ _ _ h1),
        ensureNode_keys_mono _ _ _ _ (ensureNode_keys_mono _ _ _ _ h2)⟩
    · have he2 := List.mem_singleton.mp hnew
      subst he2
      exact ⟨ensureNode_keys_mono _ _ _ _ (mem_keys_ensureNode_self _ _ _),
        mem_keys_ensureNode_self _ _ _⟩
  · intro p hp
    rcases ensureNode_mem_elim _ _ _ p hp with h1 | h1
    · rw [h1]
      rfl
    rcases ensureNode_mem_elim _ _ _ p h1 with h2 | h2
    · rw [h2]
      rfl
    exact h.2.1 p h2
  · intro g hg q hq
    rcases alistPush_mem_elim _ _ _ g hg with hold | hupd | hnewg
    · exact ensureNode_keys_mono _ _ _ _
        (ensureNode_keys_mono _ _ _ _ (h.2.2 g hold q hq))
    · obtain ⟨vs, hvs, hgeq⟩ := hupd
      subst hgeq
      rcases List.mem_append.mp hq with hq1 | hq2
      · exact ensureNode_keys_mono _ _ _ _
          (ensureNode_keys_mono _ _ _ _ (h.2.2 _ hvs q hq1))
      · have := List.mem_singleton.mp hq2
        subst this
        exact mem_keys_ensureNode_self _ _ _
    · subst hnewg
      have := List.mem_singleton.mp hq
      subst this
      exact mem_keys_ensureNode_self _ _ _

theorem beforeEdges_endpoints (nodes : List (String × Node))
    (g2 : List (String × String))
    (hq : ∀ q ∈ g2, q.2 ∈ alistKeys nodes) :
    ∀ e ∈ beforeEdges g2, e.from_node ∈ alistKeys nodes
      ∧ e.to_node ∈ alistKeys nodes := by
  intro e he
  unfold beforeEdges at he
  obtain ⟨p, hp, hpe⟩ := List.mem_map.mp he
  obtain ⟨hp1, hp2⟩ := consecPairs_mem p _ hp
  rw [pySorted_mem] at hp1 hp2
  subst hpe
  exact ⟨hq p.1 hp1, hq p.2 hp2⟩

theorem beforeFold_endpoints (nodes : List (String × Node)) :
    ∀ (bys : List (String × List (String × String))) (es0 : List Edge),
      (∀ e ∈ es0, e.from_node ∈ alistKeys nodes
        ∧ e.to_node ∈ alistKeys nodes) →
      (∀ g ∈ bys, ∀ q ∈ g.2, q.2 ∈ alistKeys nodes) →
      ∀ e ∈ bys.foldl (fun es g => es ++ beforeEdges g.2) es0,
        e.from_node ∈ alistKeys nodes ∧ e.to_node ∈ alistKeys nodes := by
  intro bys
  induction bys with
  | nil => intro es0 h0 _ e he; exact h0 e he
  | cons g rest ih =>
    intro es0 h0 hby e he
    refine ih (es0 ++ beforeEdges g.2) ?_ ?_ e he
    · intro e2 he2
      rcases List.mem_append.mp he2 with h1 | h1
      · exact h0 e2 h1
      · exact beforeEdges_endpoints nodes g.2
          (hby g (List.mem_cons_self _ _)) e2 h1
    · intro g2 hg2
      exact hby g2 (List.mem_cons_of_mem _ hg2)

/-- Invariant of the EE render fold. -/
def EEInv (ne : List (String × Node) × List Edge) : Prop :=
  (∀ e ∈ ne.2, e.from_node ∈ alistKeys ne.1
    ∧ e.to_node ∈ alistKeys ne.1) ∧
  (∀ p ∈ ne.1, (Prod.snd p).id = p.1)

theorem eeRenderStep_inv (ne : List (String × Node) × List Edge)
    (kv : (String × String × String) × EEItem) (h : EEInv ne) :
    EEInv (eeRenderStep ne kv) := by
  simp only [eeRenderStep]
  constructor
  · intro e he
    rcases List.mem_append.mp he with hold | hnew
    · obtain ⟨h1, h2⟩ := h.1 e hold
      exact ⟨ensureNode_keys_mono _ _ _ _ (ensureNode_keys_mono _ _ _ _ h1),
        ensureNode_keys_mono _ _ _ _ (ensureNode_keys_mono _ _ _ _ h2)⟩
    · have he2 := List.mem_singleton.mp hnew
      subst he2
      exact ⟨ensureNode_keys_mono _ _ _ _ (mem_keys_ensureNode_self _ _ _),
        mem_keys_ensureNode_self _ _ _⟩
  · intro p hp
    rcases ensureNode_mem_elim _ _ _ p hp with h1 | h1
    · rw [h1]
      rfl
    rcases ensureNode_mem_elim _ _ _ p h1 with h2 | h2
    · rw [h2]
      rfl
    exact h.2 p h2

/-- Claim C10: in the GE, GET and EE views, every edge's endpoints are
ids of nodes present in the same view — an edge is kept only when both
endpoints survive the top-degree selection, so these pruned views have
no dangling edges. -/
theorem claim_C10_endpoint_closure :
    ∀ (re : List EntityRow) (rv : List EventRow) (rp : List PartRow)
      (rr : List RelRow) (params : SnapshotParams) (now : Int),
      (∀ e ∈ (build_ge re rv rp params now).edges,
        (∃ n ∈ (build_ge re rv rp params now).nodes, n.id = e.from_node) ∧
        (∃ n ∈ (build_ge re rv rp params now).nodes, n.id = e.to_node)) ∧
      (∀ e ∈ (build_get re rv rp params now).edges,
        (∃ n ∈ (build_get re rv rp params now).nodes, n.id = e.from_node) ∧
        (∃ n ∈ (build_get re rv rp params now).nodes, n.id = e.to_node)) ∧
      (∀ e ∈ (build_ee re rr params now).edges,
        (∃ n ∈ (build_ee re rr params now).nodes, n.id = e.from_node) ∧
        (∃ n ∈ (build_ee re rr params now).nodes, n.id = e.to_node)) := by
  intro re rv rp rr params now
  refine ⟨?_, ?_, ?_⟩
  · have hst : GEInv (rp.foldl
        (geStep (loadEntityMap re) (loadAbsToEvt rv) params now)
        ⟨[], [], []⟩) := by
      refine foldl_inv GEInv _ rp ⟨[], [], []⟩ ⟨?_, ?_⟩ ?_
      · intro e he
        simp at he
      · intro p hp
        simp at hp
      · intro s r hs
        exact geStep_inv _ _ _ _ s r hs
    exact closure_assemble _ _ _ _ hst.1 hst.2
  · have hst : GETInv (rp.foldl
        (getStep (loadEntityMap re) (loadAbsToEvt rv) params now)
        ⟨[], [], []⟩) := by
      refine foldl_inv GETInv _ rp ⟨[], [], []⟩ ⟨?_, ?_, ?_⟩ ?_
      · intro e he
        simp at he
      · intro p hp
        simp at hp
      · intro g hg
        simp at hg
      · intro s r hs
        exact getStep_inv _ _ _ _ s r hs
    have hedges := beforeFold_endpoints _ _ _ hst.1 hst.2.2
    exact closure_assemble _ _ _ _ hedges hst.2.1
  · have hne : EEInv ((rr.foldl
        (eeStep (loadEntityMap re) params now) []).foldl
        eeRenderStep ([], [])) := by
      refine foldl_inv EEInv eeRenderStep _ ([], []) ⟨?_, ?_⟩ ?_
      · intro e he
        simp at he
      · intro p hp
        simp at hp
      · intro s kv hs
        exact eeRenderStep_inv s kv hs
    exact closure_assemble _ _ _ _ hne.1 hne.2

/-- Witness for C10 on a one-participant store: the single kept edge's
endpoints are node ids of the view. -/
theorem claim_C10_endpoint_closure_witness :
    (∃ n ∈ (build_ge [⟨"E1", "S", ""⟩] [⟨"EV1", "A", "sum", "[]", "", "", ""⟩]
        [⟨"7", "", "", "", "A", "E1", "sum", []⟩] {} 100).nodes,
      n.id = "S") ∧
    (∃ n ∈ (build_ge [⟨"E1", "S", ""⟩] [⟨"EV1", "A", "sum", "[]", "", "", ""⟩]
        [⟨"7", "", "", "", "A", "E1", "sum", []⟩] {} 100).nodes,
      n.id = "EVT:A") :=
  (claim_C10_endpoint_closure [⟨"E1", "S", ""⟩]
    [⟨"EV1", "A", "sum", "[]", "", "", ""⟩]
    [⟨"7", "", "", "", "A", "E1", "sum", []⟩] [] {} 100).1
    ⟨"S", "EVT:A", "involved_in", "involved_in", "7", none, none, none⟩
    (by decide)

/-! ### C7: EE_EVO interval segmentation -/

/-- The parsed ordinal of a group element's timestamp (`_parse_iso`,
defaulting for the statement of gap properties). -/
def pd (x : String × List String) : Int := (parse_iso x.1).getD 0

theorem splitGo_join (gap : Int) :
    ∀ (l cur : List (String × List String)) (last : Option Int),
      (splitGo gap l cur last).flatten = cur ++ l := by
  intro l
  induction l with
  | nil =>
    intro cur last
    by_cases h : cur = []
    · simp [splitGo, h]
    · simp [splitGo, h]
  | cons te rest ih =>
    intro cur last
    simp only [splitGo]
    split
    · simp only [List.flatten_cons, ih]
      simp
    · rw [ih]
      simp

theorem splitGo_ne_nil (gap : Int) :
    ∀ (l cur : List (String × List String)) (last : Option Int),
      ∀ iv ∈ splitGo gap l cur last, iv ≠ [] := by
  intro l
  induction l with
  | nil =>
    intro cur last iv hiv
    by_cases h : cur = []
    · simp [splitGo, h] at hiv
    · simp [splitGo, h] at hiv
      rw [hiv]
      exact h
  | cons te rest ih =>
    intro cur last iv hiv
    simp only [splitGo] at hiv
    split at hiv
    next hs =>
      rcases List.mem_cons.mp hiv with h | h
      · subst h
        rcases last with _ | lv
        · simp at hs
        · rcases hdt : parse_iso te.1 with _ | dv
          · rw [hdt] at hs
            simp at hs
          · rw [hdt] at hs
            rw [Bool.and_eq_true] at hs
            intro hc
            rw [hc] at hs
            simp at hs
      · exact ih _ _ iv h
    next hs => exact ih _ _ iv hiv

theorem splitGo_head (gap : Int) :
    ∀ (l cur : List (String × List String)) (last : Option Int),
      cur ≠ [] →
      ((splitGo gap l cur last).headD []).headD ("", [])
        = cur.headD ("", []) := by
  intro l
  induction l with
  | nil =>
    intro cur last hc
    simp [splitGo, hc]
  | cons te rest ih =>
    intro cur last hc
    simp only [splitGo]
    split
    · simp
    · rw [ih _ _ (by simp)]
      match cur, hc with
      | c :: cs, _ => simp

theorem splitGo_chains (gap : Int) :
    ∀ (l cur : List (String × List String)) (lastv : Int),
      (∀ x ∈ l, (parse_iso x.1).isSome = true) →
      cur ≠ [] →
      lastv = pd (cur.getLastD ("", [])) →
      List.Chain' (fun a b => pd b - pd a ≤ gap) cur →
      (∀ iv ∈ splitGo gap l cur (some lastv),
        List.Chain' (fun a b => pd b - pd a ≤ gap) iv) ∧
      List.Chain' (fun i1 i2 =>
        gap < pd (i2.headD ("", [])) - pd (i1.getLastD ("", [])))
        (splitGo gap l cur (some lastv)) := by
  intro l
  induction l with
  | nil =>
    intro cur lastv _ hc _ hchain
    constructor
    · intro iv hiv
      simp [splitGo, hc] at hiv
      rw [hiv]
      exact hchain
    · simp [splitGo, hc]
  | cons te rest ih =>
    intro cur lastv hl hc hlast hchain
    have hdt : ∃ dv, parse_iso te.1 = some dv := by
      have := hl te (List.mem_cons_self _ _)
      exact Option.isSome_iff_exists.mp this
    obtain ⟨dv, hdv⟩ := hdt
    have hpdte : pd te = dv := by
      simp [pd, hdv]
    have hne : cur.isEmpty = false := by
      simpa [List.isEmpty_iff] using hc
    have hl' : ∀ x ∈ rest, (parse_iso x.1).isSome = true := by
      intro x hx
      exact hl x (List.mem_cons_of_mem _ hx)
    simp only [splitGo, hdv, hne, Option.isSome_some, if_true, Bool.and_false,
      Bool.and_true, Bool.not_false]
    by_cases hgt : gap < dv - lastv
    · rw [if_pos (decide_eq_true hgt)]
      have hrec := ih [te] dv hl' (by simp) (by simp [hpdte]) (by simp)
      constructor
      · intro iv hiv
        rcases List.mem_cons.mp hiv with h | h
        · rw [h]
          exact hchain
        · exact hrec.1 iv h
      · rw [List.chain'_cons']
        refine ⟨?_, hrec.2⟩
        intro y hy
        have hhead : ((splitGo gap rest [te] (some dv)).headD []).headD ("", [])
            = te := by
          rw [splitGo_head gap rest [te] (some dv) (by simp)]
          rfl
        have hyv : y = (splitGo gap rest [te] (some dv)).headD [] := by
          cases hsp : splitGo gap rest [te] (some dv) with
          | nil => rw [hsp] at hy; simp at hy
          | cons a as =>
            rw [hsp] at hy
            simp at hy
            simp only [List.headD_cons]
            exact hy.symm
        rw [hyv, hhead, hpdte, ← hlast]
        exact hgt
    · rw [if_neg (by rw [decide_eq_false hgt]; simp)]
      refine ih (cur ++ [te]) dv hl' (by simp) ?_ ?_
      · rw [List.getLastD_concat]
        exact hpdte.symm
      · rw [List.chain'_append]
        refine ⟨hchain, List.chain'_singleton _, ?_⟩
        intro x hx y hy
        have hxl : x = cur.getLastD ("", []) := by
          rw [List.getLastD_eq_getLast?]
          rw [hx]
          rfl
        have hyt : y = te := by
          have := hy
          simp at this
          exact this.symm
        rw [hxl, hyt, hpdte, ← hlast]
        omega

/-- Claim C7: `build_ee_evo` groups relation rows by
`(subject, predicate, object)`, sorts each group by time and starts a
new interval exactly when the gap between consecutive (parseable)
timestamps exceeds `gap_days`: the intervals partition the sorted
group, are non-empty, have within-interval gaps ≤ `gap_days` and
boundary gaps > `gap_days`; each interval yields one `relation_state`
node whose `valid_from`/`valid_to` are its first and last timestamps,
linked by one subject-to-state and one state-to-object edge (shown on
a three-row group splitting into two intervals). -/
theorem claim_C7_ee_evo_segmentation :
    (∀ (gap : Int) (seq : List (String × List String)),
      (∀ x ∈ seq, (parse_iso x.1).isSome = true) →
      ((splitIntervals gap seq).flatten
          = pySorted (fun x y => strLe x.1 y.1) seq) ∧
      (∀ iv ∈ splitIntervals gap seq, iv ≠ []) ∧
      (∀ iv ∈ splitIntervals gap seq,
        List.Chain' (fun a b => pd b - pd a ≤ gap) iv) ∧
      List.Chain' (fun i1 i2 =>
        gap < pd (i2.headD ("", [])) - pd (i1.getLastD ("", [])))
        (splitIntervals gap seq)) ∧
    build_ee_evo [⟨"E1", "S", ""⟩, ⟨"E2", "O", ""⟩]
        [⟨"E1", "E2", "p", "001", ["x"]⟩, ⟨"E1", "E2", "p", "050", ["y"]⟩,
         ⟨"E1", "E2", "p", "010", []⟩] ⟨500, 500, 5000, 0, 30⟩ 999
      = ⟨[("graph_type", "EE_EVO"), ("generated_at", "999")],
         [entNodeOf "S", entNodeOf "O",
          relStateNode "S" "p" "O" 0 [("001", ["x"]), ("010", [])],
          relStateNode "S" "p" "O" 1 [("050", ["y"])]],
         [⟨"S", "REL:S|p|O|0", "rel_in", "rel", "001", none, none, none⟩,
          ⟨"REL:S|p|O|0", "O", "rel_out", "rel", "001", none, none, none⟩,
          ⟨"S", "REL:S|p|O|1", "rel_in", "rel", "050", none, none, none⟩,
          ⟨"REL:S|p|O|1", "O", "rel_out", "rel", "050", none, none,
            none⟩]⟩ := by
  constructor
  · intro gap seq hp
    have hps : ∀ x ∈ pySorted (fun x y => strLe x.1 y.1) seq,
        (parse_iso x.1).isSome = true := by
      intro x hx
      exact hp x ((pySorted_mem _ _ _).mp hx)
    unfold splitIntervals
    cases hs : pySorted (fun x y => strLe x.1 y.1) seq with
    | nil => simp [splitGo]
    | cons te rest =>
      have h1 := hps te (by rw [hs]; exact List.mem_cons_self _ _)
      obtain ⟨dv, hdv⟩ := Option.isSome_iff_exists.mp h1
      have hred : splitGo gap (te :: rest) [] none
          = splitGo gap rest [te] (some dv) := by
        simp [splitGo, hdv]
      rw [hred]
      have hrest : ∀ x ∈ rest, (parse_iso x.1).isSome = true := by
        intro x hx
        exact hps x (by rw [hs]; exact List.mem_cons_of_mem _ hx)
      have hchains := splitGo_chains gap rest [te] dv hrest (by simp)
        (by simp [pd, hdv]) (by simp)
      refine ⟨?_, ?_, hchains.1, hchains.2⟩
      · rw [splitGo_join]
        rfl
      · intro iv hiv
        exact splitGo_ne_nil gap rest [te] (some dv) iv hiv
  · set_option maxRecDepth 8000 in decide

/-- Witness for C7 on a concrete group (times 1, 50, 10, gap 30): the
sorted group splits into two intervals at the 40-day gap. -/
theorem claim_C7_ee_evo_segmentation_witness :
    ((splitIntervals 30 [("001", ["x"]), ("050", ["y"]), ("010", [])]).flatten
        = pySorted (fun x y => strLe x.1 y.1)
            [("001", ["x"]), ("050", ["y"]), ("010", [])]) ∧
    (∀ iv ∈ splitIntervals 30 [("001", ["x"]), ("050", ["y"]), ("010", [])],
      iv ≠ []) ∧
    (∀ iv ∈ splitIntervals 30 [("001", ["x"]), ("050", ["y"]), ("010", [])],
      List.Chain' (fun a b => pd b - pd a ≤ 30) iv) ∧
    List.Chain' (fun i1 i2 =>
      30 < pd (i2.headD ("", [])) - pd (i1.getLastD ("", [])))
      (splitIntervals 30 [("001", ["x"]), ("050", ["y"]), ("010", [])]) :=
  claim_C7_ee_evo_segmentation.1 30
    [("001", ["x"]), ("050", ["y"]), ("010", [])] (by decide)

end MarketLens
